import Mathlib

/-!
SdFs library models

Shallow embeddings of parts of the SdFs/SdFat sources:

* the inline part of `class ExFatFile` (snap_libraries/SdFs/src/ExFatLib/ExFatFile.h):
  the handle is a record of its data members, each member function is a Lean
  function on that record; members that are only declared are parameters of the
  inline wrappers, or are modelled on a `Volume` where a statement is about what
  they do;
* the software SPI driver (HS1_libraries/SdFat-beta/src/SpiDriver/SdSpiSoftDriver.h);
* the number fields of FatFilePrint.cpp and the formatted print of
  PrintTemplates.h, over a sink that records the calls of `write`.

Unsigned members are natural numbers; `uint64_t` arithmetic is taken modulo
`2 ^ 64`, and a member is in range when it fits its C type
(`ExFatFile.InRange`).
-/

set_option autoImplicit false

/-! ## Path characters -/

/-- Test for a legal name character (`lfnLegalChar`, ExFatFile.h 47-57).
`c` is the integer value of the `ExChar_t` argument (for a signed `char` it may
be negative); `unicode` is the build switch `USE_UNICODE_NAMES`. -/
def lfnLegalChar (unicode : Bool) (c : Int) : Bool :=
  if c = 47 ∨ c = 92 ∨ c = 34 ∨ c = 42 ∨
      c = 58 ∨ c = 60 ∨ c = 62 ∨ c = 63 ∨ c = 124 then
    false
  else if unicode then
    decide (0x1F < c)
  else
    decide (0x1F < c) && decide (c < 0x7F)

/-- The nine reserved characters `/ \ " * : < > ? |` as character codes. -/
def reservedChars : List Int := [47, 92, 34, 42, 58, 60, 62, 63, 124]

/-! ## The handle -/

/-- Modelled from the spec: `DirPos_t`, declared in ExFatPartition.h (not part of
the source tree); the spec describes it as the location (cluster + offset) of
the handle's directory entry set in its parent directory. -/
structure DirPos_t where
  cluster : Nat
  position : Nat
  deriving DecidableEq, Repr

/-- Data members of `class ExFatFile` (ExFatFile.h 655-666). `m_vol` is the
value of the volume pointer. -/
structure ExFatFile where
  m_curPosition : Nat
  m_dataLength : Nat
  m_validLength : Nat
  m_curCluster : Nat
  m_firstCluster : Nat
  m_vol : Nat
  m_dirPos : DirPos_t
  m_setCount : Nat
  m_attributes : Nat
  m_error : Nat
  m_flags : Nat
  deriving DecidableEq, Repr

namespace ExFatFile

def WRITE_ERROR : Nat := 0x1
def READ_ERROR : Nat := 0x2

/-- This file has not been opened. -/
def FILE_ATTR_CLOSED : Nat := 0
/-- Entry for normal data file. -/
def FILE_ATTR_FILE : Nat := 0x08
/-- Entry is for a subdirectory; `dirAttr` is the value of
`EXFAT_ATTRIB_DIRECTORY`, whose defining header is not part of the source tree. -/
def FILE_ATTR_SUBDIR (dirAttr : Nat) : Nat := dirAttr % 256
/-- Root directory. -/
def FILE_ATTR_ROOT : Nat := 0x40
/-- Directory type bits. -/
def FILE_ATTR_DIR (dirAttr : Nat) : Nat := FILE_ATTR_SUBDIR dirAttr ||| FILE_ATTR_ROOT

def FILE_FLAG_CONTIGUOUS : Nat := 0x40
def FILE_FLAG_DIR_DIRTY : Nat := 0x80

/-- Every member holds a value of its C type. -/
def InRange (f : ExFatFile) : Prop :=
  f.m_curPosition < 2 ^ 64 ∧ f.m_dataLength < 2 ^ 64 ∧ f.m_validLength < 2 ^ 64 ∧
  f.m_curCluster < 2 ^ 32 ∧ f.m_firstCluster < 2 ^ 32 ∧
  f.m_setCount < 256 ∧ f.m_attributes < 256 ∧ f.m_error < 256 ∧ f.m_flags < 256

instance (f : ExFatFile) : Decidable (InRange f) := by
  unfold InRange; infer_instance

/-- The constructor `ExFatFile() : m_attributes(FILE_ATTR_CLOSED), m_error(0) {}`.
Only two members have an initialiser; every other member keeps whatever the
object's storage held, which is the argument `mem`. -/
def ctor (mem : ExFatFile) : ExFatFile :=
  { mem with m_attributes := FILE_ATTR_CLOSED, m_error := 0 }

def curPosition (f : ExFatFile) : Nat := f.m_curPosition
def dataLength (f : ExFatFile) : Nat := f.m_dataLength
def fileSize (f : ExFatFile) : Nat := f.m_validLength
def validLength (f : ExFatFile) : Nat := f.m_validLength
def curCluster (f : ExFatFile) : Nat := f.m_curCluster

/-- Clear all error bits. -/
def clearError (f : ExFatFile) : ExFatFile :=
  { f with m_error := 0 }

/-- Set writeError to zero: `m_error &= ~WRITE_ERROR`.  The operands are promoted
to `int`, so the complement is the integer `-2`; the result is narrowed back to
`uint8_t`. -/
def clearWriteError (f : ExFatFile) : ExFatFile :=
  { f with m_error := (Int.land (f.m_error : Int) (~~~(WRITE_ERROR : Int)) % 256).toNat }

def getError (f : ExFatFile) : Nat := f.m_error

def getWriteError (f : ExFatFile) : Bool := (f.m_error &&& WRITE_ERROR) != 0

def isContiguous (f : ExFatFile) : Bool := (f.m_flags &&& FILE_FLAG_CONTIGUOUS) != 0
def isDir (dirAttr : Nat) (f : ExFatFile) : Bool :=
  (f.m_attributes &&& FILE_ATTR_DIR dirAttr) != 0
def isFile (f : ExFatFile) : Bool := (f.m_attributes &&& FILE_ATTR_FILE) != 0
def isOpen (f : ExFatFile) : Bool := f.m_attributes != 0
def isSubDir (dirAttr : Nat) (f : ExFatFile) : Bool :=
  (f.m_attributes &&& FILE_ATTR_SUBDIR dirAttr) != 0
def isRoot (f : ExFatFile) : Bool := (f.m_attributes &&& FILE_ATTR_ROOT) != 0

/-- The conversion `operator bool()`. -/
def toBool (f : ExFatFile) : Bool := isOpen f

/-- Difference of two `uint64_t` values. -/
def sub64 (a b : Nat) : Nat := (a + 2 ^ 64 - b) % 2 ^ 64

/-- Bytes from the current position to EOF: `isFile() ? fileSize() - curPosition() : 0`. -/
def available64 (f : ExFatFile) : Nat :=
  if isFile f then sub64 (fileSize f) (curPosition f) else 0

/-- The largest `int` of a platform whose `int` has `w` bits. -/
def INT_MAX (w : Nat) : Nat := 2 ^ (w - 1) - 1

/-- `available()`: `n > INT_MAX ? INT_MAX : n`, a `uint64_t`, returned as an `int`
of `w` bits (two's complement narrowing). -/
def available (w : Nat) (f : ExFatFile) : Int :=
  let n := available64 f
  Int.bmod ((if n > INT_MAX w then INT_MAX w else n : Nat) : Int) (2 ^ w)

/-- Conversion of an `int64_t` to `uint64_t`. -/
def toU64 (x : Int) : Nat := (x % 2 ^ 64).toNat

/-- Sum of two `uint64_t` values. -/
def add64 (a b : Nat) : Nat := (a + b) % 2 ^ 64

/-- Type of `bool seekSet(uint64_t pos)`.  The member is only declared in
ExFatFile.h; it acts on the handle and on the state `V` of the volume behind
it and returns its result with both. -/
abbrev SeekSetFn (V : Type) := ExFatFile → V → Nat → Bool × ExFatFile × V

/-- Type of `bool truncate()`, declared only, like `seekSet`. -/
abbrev TruncateFn (V : Type) := ExFatFile → V → Bool × ExFatFile × V

/-- Set the file's current position to zero: `seekSet(0)`, result discarded. -/
def rewind {V : Type} (seekSet : SeekSetFn V) (f : ExFatFile) (v : V) : ExFatFile × V :=
  (seekSet f v 0).2

/-- `seekCur(int64_t offset)`: `seekSet(m_curPosition + offset)`. -/
def seekCur {V : Type} (seekSet : SeekSetFn V) (f : ExFatFile) (v : V) (offset : Int) :
    Bool × ExFatFile × V :=
  seekSet f v (add64 f.m_curPosition (toU64 offset))

/-- `seekEnd(int64_t offset)`: `isFile() ? seekSet(m_validLength + offset) : false`. -/
def seekEnd {V : Type} (seekSet : SeekSetFn V) (f : ExFatFile) (v : V) (offset : Int) :
    Bool × ExFatFile × V :=
  if isFile f then seekSet f v (add64 f.m_validLength (toU64 offset)) else (false, f, v)

/-- `truncate(uint64_t length)`: `seekSet(length) && truncate()`; the second
call runs only when the first returned true. -/
def truncate {V : Type} (seekSet : SeekSetFn V) (truncate0 : TruncateFn V)
    (f : ExFatFile) (v : V) (length : Nat) : Bool × ExFatFile × V :=
  let r := seekSet f v length
  if r.1 then truncate0 r.2.1 r.2.2 else (false, r.2.1, r.2.2)

/-- Storage contents with `m_validLength = 1` and `m_dataLength = 0`. -/
def staleStorage : ExFatFile :=
  { m_curPosition := 0, m_dataLength := 0, m_validLength := 1, m_curCluster := 0,
    m_firstCluster := 0, m_vol := 0, m_dirPos := ⟨0, 0⟩, m_setCount := 0,
    m_attributes := 0, m_error := 0, m_flags := 0 }

/-- An open normal file of 1000 valid bytes in 4096 allocated, positioned at
byte 100, with both error bits set. -/
def sampleFile : ExFatFile :=
  { m_curPosition := 100, m_dataLength := 4096, m_validLength := 1000, m_curCluster := 5,
    m_firstCluster := 5, m_vol := 1, m_dirPos := ⟨2, 64⟩, m_setCount := 3,
    m_attributes := 0x08, m_error := 3, m_flags := 0x42 }

/-- The type tags of a handle are exclusive: it is not a normal file and a
directory at once.  `FILE_ATTR_FILE` is the tag of a normal data file,
`FILE_ATTR_SUBDIR` and `FILE_ATTR_ROOT` are the tags of a directory
(ExFatFile.h 637-645), and a handle is closed, a normal file, or a directory. -/
def TagsExclusive (dirAttr : Nat) (f : ExFatFile) : Prop :=
  ¬ (isFile f = true ∧ isDir dirAttr f = true)

instance (dirAttr : Nat) (f : ExFatFile) : Decidable (TagsExclusive dirAttr f) := by
  unfold TagsExclusive; infer_instance

/-- A subdirectory handle: only the directory attribute bit is set. -/
def sampleDir : ExFatFile :=
  { sampleFile with m_attributes := 0x10, m_validLength := 0 }

/-- A normal file of 5,000,000,000 bytes positioned at its start. -/
def largeFile : ExFatFile :=
  { sampleFile with m_curPosition := 0, m_validLength := 5000000000,
                    m_dataLength := 5000003584 }

end ExFatFile

/-! ## Byte-range operations

`seekSet`, `write` and `read` are declared in ExFatFile.h and defined in files
that are not part of the source tree.  They are modelled here on the handle
record and on `Volume`, with mathematical integers for offsets and counts.
-/

/-- Modelled from the spec: the error kinds (section 7) that the byte-range
operations report; the library's own error reporting code is not in the source
tree. -/
inductive FsError where
  | NotOpen
  | OutOfSpace
  | IOError
  deriving DecidableEq, Repr

/-- Modelled from the spec: the Volume/Bitmap Manager and Block Device (sections
2, 4.4 and 6), whose code is not in the source tree, as one open handle sees
them: the cluster size in bytes, the number of clusters the bitmap can still
hand out, and the byte stored at each logical offset of the handle's cluster
chain. -/
structure Volume where
  clusterBytes : Nat
  freeClusters : Nat
  media : Nat → Nat

namespace ExFatFile

/-- Number of clusters that back `n` bytes. -/
def clustersFor (clusterBytes n : Nat) : Nat := (n + clusterBytes - 1) / clusterBytes

/-- Modelled from the spec: `ExFatFile::seekSet(uint64_t pos)`, declared at
ExFatFile.h 541, body not in the source tree.  Section 4.3: an operation on a
closed handle fails; otherwise the logical byte offset `curPosition` becomes
`pos`.  The volume is not changed. -/
def seekSet : SeekSetFn Volume := fun f v pos =>
  if isOpen f then (true, { f with m_curPosition := pos }, v) else (false, f, v)

/-- Offset at which `write` stores its first byte: the valid length when the
open-mode flag APPEND (bit `O_APPEND`) is set, else the current position. -/
def writeOffset (O_APPEND : Nat) (f : ExFatFile) : Nat :=
  if (f.m_flags &&& O_APPEND) != 0 then f.m_validLength else f.m_curPosition

/-- The handle after a failed write: WRITE_ERROR is set. -/
def writeFailed (f : ExFatFile) : ExFatFile :=
  { f with m_error := f.m_error ||| WRITE_ERROR }

/-- Modelled from the spec: `ExFatFile::write(const void* buf, size_t count)`,
declared at ExFatFile.h 594, body not in the source tree.  Section 4.3, Write:
fails on a closed handle; APPEND forces the position to `validLength`; the chain
is extended through cluster allocation when `curPosition + count > dataLength`
(OutOfSpace when the bitmap has too few free clusters); the full count is
written or the write fails; on failure WRITE_ERROR is set and the error is
reported; on success `validLength` becomes `max validLength (curPosition +
count)`, the handle turns dirty when a length changed, and SYNC flushes the
metadata, which leaves the handle clean.  `O_APPEND` and `O_SYNC` are the flag
bits (their header is not in the source tree); `devOk` is the outcome of the
Block Device transfers of this call. -/
def write (O_APPEND O_SYNC : Nat) (f : ExFatFile) (v : Volume) (buf : List Nat)
    (devOk : Bool) : Except FsError Nat × ExFatFile × Volume :=
  if !isOpen f then (Except.error FsError.NotOpen, writeFailed f, v)
  else
    let pos := writeOffset O_APPEND f
    let endPos := pos + buf.length
    let need := clustersFor v.clusterBytes endPos - clustersFor v.clusterBytes f.m_dataLength
    if endPos > f.m_dataLength ∧ need > v.freeClusters then
      (Except.error FsError.OutOfSpace, writeFailed f, v)
    else if !devOk then (Except.error FsError.IOError, writeFailed f, v)
    else
      let changed := decide (endPos > f.m_validLength ∨ endPos > f.m_dataLength)
      let dirty := if changed then f.m_flags ||| FILE_FLAG_DIR_DIRTY else f.m_flags
      let flags := if (f.m_flags &&& O_SYNC) != 0
        then dirty - (dirty &&& FILE_FLAG_DIR_DIRTY) else dirty
      (Except.ok buf.length,
       { f with m_curPosition := endPos,
                m_validLength := max f.m_validLength endPos,
                m_dataLength := max f.m_dataLength endPos,
                m_flags := flags },
       { v with freeClusters := if endPos > f.m_dataLength then v.freeClusters - need
                                else v.freeClusters,
                media := fun i => if pos ≤ i ∧ i < endPos then buf.getD (i - pos) 0
                                  else v.media i })

/-- Modelled from the spec: `ExFatFile::read(void* buf, size_t count)`, declared
at ExFatFile.h 455, body not in the source tree.  Section 4.3, Read: fails on a
closed handle; the requested length is clipped to `min(requested, validLength -
curPosition)`; an I/O failure sets READ_ERROR.  The result is the number of
bytes read, or -1 for an error as the declaration's documentation says,
together with the bytes stored into `buf`.  `devOk` is the outcome of the Block
Device transfers of this call. -/
def read (f : ExFatFile) (v : Volume) (count : Nat) (devOk : Bool) :
    Int × List Nat × ExFatFile × Volume :=
  if !isOpen f then (-1, [], f, v)
  else if !devOk then (-1, [], { f with m_error := f.m_error ||| READ_ERROR }, v)
  else
    let n := min count (f.m_validLength - f.m_curPosition)
    ((n : Int), (List.range n).map (fun i => v.media (f.m_curPosition + i)),
     { f with m_curPosition := f.m_curPosition + n }, v)

/-- The sequence `write(buf, n); seekSet(pos); read(out, n)` with `pos` the
offset the write stored its first byte at and a Block Device that carries out
the read: the result of `seekSet`, the result of `read` and the bytes `out`. -/
def writeThenReadBack (O_APPEND O_SYNC : Nat) (f : ExFatFile) (v : Volume)
    (buf : List Nat) (devOk : Bool) : Bool × Int × List Nat :=
  let w := write O_APPEND O_SYNC f v buf devOk
  let s := seekSet w.2.1 w.2.2 (writeOffset O_APPEND f)
  let r := read s.2.1 s.2.2 buf.length true
  (s.1, r.1, r.2.1)

/-- A volume with 512-byte clusters, 100 of them free, and 0xFF in every byte. -/
def sampleVolume : Volume :=
  { clusterBytes := 512, freeClusters := 100, media := fun _ => 0xFF }

end ExFatFile

/-! ## Single-byte read and truncation -/

namespace ExFatFile

/-- Type of `int read(void* buf, size_t count)`, declared only in ExFatFile.h:
the result, the bytes stored into `buf`, and the handle and volume afterwards. -/
abbrev ReadFn (V : Type) := ExFatFile → V → Nat → Int × List Nat × ExFatFile × V

/-- `int read()`: `uint8_t b; return read(&b, 1) == 1 ? b : -1;`.  `b0` is the
value the uninitialised local `b` starts with; `b` is a `uint8_t`, so what it
holds is below 256 and is promoted to `int` unchanged. -/
def readByte {V : Type} (readFn : ReadFn V) (b0 : Nat) (f : ExFatFile) (v : V) :
    Int × ExFatFile × V :=
  let r := readFn f v 1
  let b := (r.2.1.headD b0) % 256
  (if r.1 = 1 then (b : Int) else -1, r.2.2.1, r.2.2.2)

/-- Modelled from the spec: `ExFatFile::truncate()`, declared at ExFatFile.h 554,
body not in the source tree.  Section 4.3, Truncate: shrinks `dataLength` and
`validLength` to the current position and releases the now-unused clusters back
to the Volume bitmap; fails if the handle is a directory or not open for
writing; an operation on a closed handle fails.  `dirAttr` is
`EXFAT_ATTRIB_DIRECTORY` and `O_WRITE` the open-for-writing flag bit (their
headers are not in the source tree). -/
def truncate0 (dirAttr O_WRITE : Nat) : TruncateFn Volume := fun f v =>
  if !isOpen f || isDir dirAttr f || (f.m_flags &&& O_WRITE) == 0 then (false, f, v)
  else
    (true,
     { f with m_dataLength := f.m_curPosition,
              m_validLength := f.m_curPosition,
              m_flags := f.m_flags ||| FILE_FLAG_DIR_DIRTY },
     { v with freeClusters := v.freeClusters +
                (clustersFor v.clusterBytes f.m_dataLength
                  - clustersFor v.clusterBytes f.m_curPosition) })

/-- A closed handle: the constructor applied to the sample file's storage. -/
def closedFile : ExFatFile := ctor sampleFile

/-- A volume whose media holds 0xFF at every offset, read through `read` with a
working device. -/
def readFF : ReadFn Volume := fun f v n => read f v n true

end ExFatFile

/-! ## Software SPI driver (HS1_libraries/SdFat-beta/src/SpiDriver/SdSpiSoftDriver.h) -/

/-- The abstract port `class SoftSPIClass` (SdSpiSoftDriver.h 36-50): its three
virtual members, acting on a port state `P`. -/
structure SoftSPIClass (P : Type) where
  begin : P → P
  receive : P → Nat × P
  send : P → Nat → P

/-- The part of `SdSpiConfig` that `begin` reads: the port pointer `spiPort`,
null or a port.  The type is declared in a header that is not part of the
source tree. -/
structure SdSpiConfig (P : Type) where
  spiPort : Option P

/-- The class `SdSoftSpiDriver`: its only member is the port pointer `m_spi`. -/
structure SdSoftSpiDriver (P : Type) where
  m_spi : Option P

namespace SdSoftSpiDriver

/-- `begin(spiConfig)`: `m_spi = spiConfig.spiPort; if (m_spi) m_spi->begin();`. -/
def begin {P : Type} (io : SoftSPIClass P) (_d : SdSoftSpiDriver P) (spiConfig : SdSpiConfig P) :
    SdSoftSpiDriver P :=
  match spiConfig.spiPort with
  | some p => { m_spi := some (io.begin p) }
  | none => { m_spi := none }

/-- `uint8_t receive()`: `m_spi ? m_spi->receive() : 0XFF`. -/
def receive {P : Type} (io : SoftSPIClass P) (d : SdSoftSpiDriver P) :
    Nat × SdSoftSpiDriver P :=
  match d.m_spi with
  | some p => ((io.receive p).1 % 256, { m_spi := some (io.receive p).2 })
  | none => (0xFF, d)

/-- The loop `for (i; i < count; i++) buf[i] = receive();` with `n` iterations
left, `buf` being the memory from the buffer's first byte on. -/
def receiveLoop {P : Type} (io : SoftSPIClass P) :
    Nat → Nat → (Nat → Nat) → SdSoftSpiDriver P → (Nat → Nat) × SdSoftSpiDriver P
  | 0, _, buf, d => (buf, d)
  | n + 1, i, buf, d =>
    receiveLoop io n (i + 1) (Function.update buf i (receive io d).1) (receive io d).2

/-- `uint8_t receive(uint8_t* buf, size_t count)`: the loop from index 0, then
`return 0`. -/
def receiveBuf {P : Type} (io : SoftSPIClass P) (d : SdSoftSpiDriver P) (buf : Nat → Nat)
    (count : Nat) : Nat × (Nat → Nat) × SdSoftSpiDriver P :=
  (0, receiveLoop io count 0 buf d)

/-- The bytes that `n` successive calls of the single-byte `receive()` return. -/
def receiveSeq {P : Type} (io : SoftSPIClass P) : Nat → SdSoftSpiDriver P → List Nat
  | 0, _ => []
  | n + 1, d => (receive io d).1 :: receiveSeq io n (receive io d).2

/-- A port that counts: its state is the next byte it will deliver. -/
def countingPort : SoftSPIClass Nat :=
  { begin := fun _ => 7, receive := fun p => (p, p + 1), send := fun p _ => p }

end SdSoftSpiDriver

/-! ## Number fields (Remora2_teensy_libraries/SdFs/src/FatLib/FatFilePrint.cpp)

Characters are their codes.  The sink is the `write` of the file or print
stream: it receives the bytes of one call and returns that call's result.
-/

/-- The loop of `fmtBase10`: store `value % 10 + '0'` before the text so far,
divide by ten, repeat while the value is not zero. -/
def fmtBase10Loop : Nat → Nat → List Nat → List Nat
  | 0, _, acc => acc
  | fuel + 1, n, acc =>
    if n / 10 = 0 then (n % 10 + 48) :: acc
    else fmtBase10Loop fuel (n / 10) ((n % 10 + 48) :: acc)

/-- Modelled from the spec: `fmtBase10(char* str, value)`, declared in
FmtNumber.h, which is not part of the source tree.  It formats an unsigned
number in base 10 in front of `str` and returns the new start of the text (the
documentation of its callers: print a number, print a file size in bytes); the
list is the text stored, first character first. -/
def fmtBase10 (value : Nat) : List Nat := fmtBase10Loop (value + 1) value []

/-- The decimal digits of `n`, most significant first and without leading zeros,
as character codes. -/
def decimalDigits (n : Nat) : List Nat :=
  if n = 0 then [48] else (Nat.digits 10 n).reverse.map (fun d => d + 48)

/-- The template `printFieldT` (FatFilePrint.cpp 140-156) for a `Type` of
`sizeofType` bytes: the buffer of `3 * sizeof(Type) + 3` characters is filled
from its end, then `write` is called once with what was stored.  The result is
that call's result with the bytes passed; `none` when the text would not fit the
buffer. -/
def printFieldT (sink : List Nat → Int) (sizeofType : Nat) (sign value term : Nat) :
    Option (Int × List Nat) :=
  let str1 := if term ≠ 0 then (if term = 10 then [13, term] else [term]) else []
  let str2 := fmtBase10 value ++ str1
  let str3 := if sign ≠ 0 then sign :: str2 else str2
  if str3.length ≤ 3 * sizeofType + 3 then some (sink str3, str3) else none

/-- `printField(uint16_t value, char term)` for `w = 16` and
`printField(uint32_t value, char term)` for `w = 32`. -/
def printFieldUnsigned (sink : List Nat → Int) (w : Nat) (value term : Nat) :
    Option (Int × List Nat) :=
  printFieldT sink (w / 8) 0 value term

/-- `printField(int16_t value, char term)` for `w = 16` and
`printField(int32_t value, char term)` for `w = 32`: `sign = '-'` and
`value = -value` for a negative value, then the value is cast to the unsigned
type.  The negation is two's complement in `w` bits. -/
def printFieldSigned (sink : List Nat → Int) (w : Nat) (value : Int) (term : Nat) :
    Option (Int × List Nat) :=
  let sign := if value < 0 then 45 else 0
  let value1 := if value < 0 then Int.bmod (-value) (2 ^ w) else value
  printFieldT sink (w / 8) sign (value1 % 2 ^ w).toNat term

/-- `printFileSize(print_t* pr)` (FatFilePrint.cpp 209-218) for a file of
`fileSize()` bytes: an 11-byte buffer gets a 0 in its last place, the digits in
front of it, blanks in front of them down to the first place, and is written as
a string.  The result is the result of that `write` with the characters passed;
`none` when the digits would start before the buffer. -/
def printFileSize (sink : List Nat → Nat) (fileSize : Nat) : Option (Nat × List Nat) :=
  let digits := fmtBase10 fileSize
  if digits.length ≤ 10 then
    let buf := List.replicate (10 - digits.length) 32 ++ digits ++ [0]
    some (sink (buf.takeWhile (fun c => c != 0)), buf.takeWhile (fun c => c != 0))
  else none

/-- A sink that takes every byte: the result of a write is the count requested. -/
def acceptAll (bytes : List Nat) : Int := bytes.length

/-! ## Formatted print (Remora-2_BothAtmegaTeensy/SdFs/src/common/PrintTemplates.h)

The format string is the list of its characters up to the terminating 0; reading
at its end gives 0.  Values of type `int`, `long` and `size_t` are mathematical
integers (signed overflow is undefined in C and not part of the model).  The
destination `F* file` is a sink that sees the calls of `write` made so far and
the bytes of the present call, and returns the result of the call.
-/

/-- The calls of `write` in order: the bytes passed and the result returned. -/
abbrev WriteLog := List (List Nat × Int)

/-- The destination of a formatted print. -/
abbrev Sink := WriteLog → List Nat → Int

/-- Every call so far returned the count that was requested. -/
def AllAccepted (log : WriteLog) : Prop := ∀ e ∈ log, e.2 = (e.1.length : Int)

/-- Total number of bytes passed to `write`. -/
def totalBytes (log : WriteLog) : Int := (log.map (fun e => (e.1.length : Int))).sum

/-- Sum of the results `write` returned. -/
def totalResults (log : WriteLog) : Int := (log.map (fun e => e.2)).sum

/-- One variadic argument: an `int` or `long`, a `char*` (`none` is the null
pointer, otherwise the characters in front of the terminating 0), or a `double`
of an abstract type `D`. -/
inductive Arg (D : Type) where
  | int (v : Int)
  | str (s : Option (List Nat))
  | dbl (d : D)

/-- The number formatters of FmtNumber.h, which is not part of the source tree,
and the operations on `double` that `vfprintf` uses.  Each formatter stores text
in front of `str` and returns its new start; the list is the text stored. -/
structure FmtNumber (D : Type) where
  fmtUnsigned : Int → Nat → Bool → List Nat
  fmtSigned : Int → Nat → Bool → List Nat
  fmtDouble : D → Int → Bool → Nat → List Nat
  isNegative : D → Bool
  negate : D → D
  zero : D

/-- `*fmt++`: the character read and the rest of the format. -/
def nextChar : List Nat → Nat × List Nat
  | [] => (0, [])
  | c :: rest => (c, rest)

/-- `va_arg(ap, int)` and `va_arg(ap, long)`.  Reading an argument that is
missing or of another type is undefined in C; the model delivers 0. -/
def vaInt {D : Type} : List (Arg D) → Int × List (Arg D)
  | Arg.int v :: rest => (v, rest)
  | _ :: rest => (0, rest)
  | [] => (0, [])

/-- `va_arg(ap, char*)`; an argument that is missing or of another type is
delivered as the null pointer. -/
def vaStr {D : Type} : List (Arg D) → Option (List Nat) × List (Arg D)
  | Arg.str s :: rest => (s, rest)
  | _ :: rest => (none, rest)
  | [] => (none, [])

/-- `va_arg(ap, double)`; an argument that is missing or of another type is
delivered as zero. -/
def vaDbl {D : Type} (F : FmtNumber D) : List (Arg D) → D × List (Arg D)
  | Arg.dbl d :: rest => (d, rest)
  | _ :: rest => (F.zero, rest)
  | [] => (F.zero, [])

/-- `while ((c = *fmt++) && c != '%') {}`: the literal text skipped, the
character that ended the scan, and the rest of the format. -/
def scanLiteral : List Nat → List Nat × Nat × List Nat
  | [] => ([], 0, [])
  | c :: rest =>
    if c ≠ 0 ∧ c ≠ 37 then ((c :: (scanLiteral rest).1), (scanLiteral rest).2)
    else ([], c, rest)

/-! ### vmprintf -/

/-- The `switch (c)` of `vmprintf` (PrintTemplates.h 348-377): the text between
`str` and `ptr`, and the remaining arguments. -/
def vmItem {D : Type} (F : FmtNumber D) (c : Nat) (ap : List (Arg D)) :
    List Nat × List (Arg D) :=
  if c = 99 then ([((vaInt ap).1 % 256).toNat], (vaInt ap).2)
  else if c = 115 then
    (match (vaStr ap).1 with
      | some s => s
      | none => [], (vaStr ap).2)
  else if c = 100 then (F.fmtSigned (vaInt ap).1 10 true, (vaInt ap).2)
  else if c = 117 then (F.fmtUnsigned (vaInt ap).1 10 true, (vaInt ap).2)
  else if c = 120 ∨ c = 88 then (F.fmtUnsigned (vaInt ap).1 16 (c == 88), (vaInt ap).2)
  else ([c], ap)

/-- The `while (true)` loop of `vmprintf` (PrintTemplates.h 327-380) with `fuel`
iterations allowed: every `write` result is added to `nc`, none is compared with
the count requested.  The result is `nc` and the calls made; `none` when the
iterations allowed are used up. -/
def vmprintfLoop {D : Type} (F : FmtNumber D) (sink : Sink) :
    Nat → List Nat → List (Arg D) → Int → WriteLog → Option (Int × WriteLog)
  | 0, _, _, _, _ => none
  | fuel + 1, fmt, ap, nc, log =>
    let lit := scanLiteral fmt
    let log1 := if lit.1.length ≠ 0 then log ++ [(lit.1, sink log lit.1)] else log
    let nc1 := if lit.1.length ≠ 0 then nc + sink log lit.1 else nc
    if lit.2.1 = 0 then some (nc1, log1)
    else
      let c1 := nextChar lit.2.2
      let c2 := if c1.1 = 108 then nextChar c1.2 else c1
      if c2.1 = 0 then some (nc1, log1)
      else
        let item := vmItem F c2.1 ap
        vmprintfLoop F sink fuel c2.2 item.2 (nc1 + sink log1 item.1)
          (log1 ++ [(item.1, sink log1 item.1)])

/-- `vmprintf(file, fmt, ap)`. -/
def vmprintf {D : Type} (F : FmtNumber D) (sink : Sink) (fmt : List Nat) (ap : List (Arg D)) :
    Option (Int × WriteLog) :=
  vmprintfLoop F sink (fmt.length + 1) fmt ap 0 []

/-- Formatters that produce no text, over a one-point type of doubles. -/
def noFmt : FmtNumber Unit :=
  { fmtUnsigned := fun _ _ _ => [], fmtSigned := fun _ _ _ => [],
    fmtDouble := fun _ _ _ _ => [], isNegative := fun _ => false,
    negate := fun d => d, zero := () }

/-- A file with room for `room` more bytes: a write that fits returns its count,
any other write returns 0. -/
def roomFor (room : Nat) : Sink := fun log bytes =>
  if totalResults log + bytes.length ≤ room then (bytes.length : Int) else 0

/-! ### vfprintf -/

/-- One `write` whose result is compared with the count requested: the call is
recorded; `Except.error` is the jump to `fail`. -/
def put (sink : Sink) (log : WriteLog) (bytes : List Nat) : Except WriteLog WriteLog :=
  if sink log bytes = (bytes.length : Int) then Except.ok (log ++ [(bytes, sink log bytes)])
  else Except.error (log ++ [(bytes, sink log bytes)])

/-- `for (; k > 0; k--) { if (1 != file->write(ch)) goto fail; }`. -/
def putN (sink : Sink) (ch : Nat) : Nat → WriteLog → Except WriteLog WriteLog
  | 0, log => Except.ok log
  | k + 1, log => (put sink log [ch]).bind (putN sink ch k)

/-- `isDigit(d)`: `'0' <= d && d <= '9'`. -/
def isDigit (d : Nat) : Bool := decide (48 ≤ d) && decide (d ≤ 57)

/-- The flags of a conversion. -/
structure Flags where
  leftAdjust : Bool
  plusSign : Nat
  zeroPad : Bool
  altForm : Bool

/-- The characters `- + space 0 #`. -/
def isFlag (c : Nat) : Bool := c == 45 || c == 43 || c == 32 || c == 48 || c == 35

/-- One pass of the flag loop (PrintTemplates.h 90-104) for a flag character. -/
def setFlag (fl : Flags) (c : Nat) : Flags :=
  if c = 45 then { fl with leftAdjust := true }
  else if c = 43 then { fl with plusSign := 43 }
  else if c = 32 then (if fl.plusSign = 0 then { fl with plusSign := 32 } else fl)
  else if c = 48 then { fl with zeroPad := true }
  else if c = 35 then { fl with altForm := true }
  else fl

/-- The flag loop: flags set, the first character that is no flag, the rest of
the format. -/
def parseFlags : Flags → Nat → List Nat → Flags × Nat × List Nat
  | fl, c, [] => if isFlag c then (setFlag fl c, 0, []) else (fl, c, [])
  | fl, c, c1 :: rest =>
    if isFlag c then parseFlags (setFlag fl c) c1 rest else (fl, c, c1 :: rest)

/-- `while (isDigit(c)) { n = 10 * n + c - '0'; c = *fmt++; }`. -/
def parseNum : Int → Nat → List Nat → Int × Nat × List Nat
  | n, c, [] => if isDigit c then (10 * n + c - 48, 0, []) else (n, c, [])
  | n, c, c1 :: rest =>
    if isDigit c then parseNum (10 * n + c - 48) c1 rest else (n, c, c1 :: rest)

/-- The local variables of `vfprintf` while one conversion is handled; `pre` is
`prefix[0 .. np)` and `item` the characters from `str` to `ptr`. -/
structure Locals (D : Type) where
  c : Nat
  fmt : List Nat
  ap : List (Arg D)
  altForm : Bool
  leftAdjust : Bool
  zeroPad : Bool
  plusSign : Nat
  width : Int
  prec : Int
  isLong : Bool
  pre : List Nat
  nz : Int
  item : List Nat

/-- Lines 81-106: the locals are reset, `c = *fmt++` (the argument `c`), and the
flag loop runs. -/
def phaseFlags {D : Type} (c : Nat) (fmt : List Nat) (ap : List (Arg D)) : Locals D :=
  let r := parseFlags ⟨false, 0, false, false⟩ c fmt
  { c := r.2.1, fmt := r.2.2, ap := ap, altForm := r.1.altForm,
    leftAdjust := r.1.leftAdjust, zeroPad := r.1.zeroPad, plusSign := r.1.plusSign,
    width := 0, prec := -1, isLong := false, pre := [], nz := 0, item := [] }

/-- Lines 108-121: the field width, digits or `*`. -/
def phaseWidth {D : Type} (L : Locals D) : Locals D :=
  if isDigit L.c then
    { L with width := (parseNum 0 L.c L.fmt).1, c := (parseNum 0 L.c L.fmt).2.1,
             fmt := (parseNum 0 L.c L.fmt).2.2 }
  else if L.c = 42 then
    if (vaInt L.ap).1 < 0 then
      { L with width := -(vaInt L.ap).1, leftAdjust := true, c := (nextChar L.fmt).1,
               fmt := (nextChar L.fmt).2, ap := (vaInt L.ap).2 }
    else
      { L with width := (vaInt L.ap).1, c := (nextChar L.fmt).1,
               fmt := (nextChar L.fmt).2, ap := (vaInt L.ap).2 }
  else L

/-- Lines 122-124: `if (leftAdjust) zeroPad = false;`. -/
def phaseLeft {D : Type} (L : Locals D) : Locals D :=
  if L.leftAdjust then { L with zeroPad := false } else L

/-- Lines 126-140: the precision, digits or `*` after a `.`. -/
def phasePrec {D : Type} (L : Locals D) : Locals D :=
  if L.c = 46 then
    let c1 := (nextChar L.fmt).1
    let fmt1 := (nextChar L.fmt).2
    if isDigit c1 then
      { L with zeroPad := false, prec := (parseNum 0 c1 fmt1).1,
               c := (parseNum 0 c1 fmt1).2.1, fmt := (parseNum 0 c1 fmt1).2.2 }
    else if c1 = 42 then
      { L with zeroPad := false, prec := (vaInt L.ap).1, c := (nextChar fmt1).1,
               fmt := (nextChar fmt1).2, ap := (vaInt L.ap).2 }
    else { L with zeroPad := false, prec := 0, c := c1, fmt := fmt1 }
  else L

/-- Lines 142-146: the length modifier `l` or `L`. -/
def phaseLong {D : Type} (L : Locals D) : Locals D :=
  if L.c = 108 ∨ L.c = 76 then
    { L with isLong := true, c := (nextChar L.fmt).1, fmt := (nextChar L.fmt).2 }
  else L

/-- The sign for a number: `-` for a negative one, else the plus sign if any. -/
def signPrefix (negative : Bool) (plusSign : Nat) : List Nat :=
  if negative then [45] else if plusSign ≠ 0 then [plusSign] else []

/-- `case 'c'` (lines 153-155): the argument as one character. -/
def switchChar {D : Type} (L : Locals D) : Locals D :=
  { L with item := [((vaInt L.ap).1 % 256).toNat], ap := (vaInt L.ap).2 }

/-- The string of `case 's'`: the argument, or "(null)" for the null pointer. -/
def strOrNull (s : Option (List Nat)) : List Nat :=
  match s with
  | some t => t
  | none => [40, 110, 117, 108, 108, 41]

/-- `case 's'` (lines 157-164): the string up to the precision if one is given
and smaller than its length. -/
def switchStr {D : Type} (L : Locals D) : Locals D :=
  { L with item := (strOrNull (vaStr L.ap).1).take
                     (if 0 ≤ L.prec ∧ L.prec < (strOrNull (vaStr L.ap).1).length
                      then L.prec.toNat else (strOrNull (vaStr L.ap).1).length),
           ap := (vaStr L.ap).2 }

/-- `case 'd'`, `case 'i'` (lines 166-179). -/
def switchSigned {D : Type} (F : FmtNumber D) (L : Locals D) : Locals D :=
  if L.prec ≠ 0 ∨ (vaInt L.ap).1 ≠ 0 then
    { L with pre := signPrefix (decide ((vaInt L.ap).1 < 0)) L.plusSign,
             item := F.fmtUnsigned
               (if (vaInt L.ap).1 < 0 then -(vaInt L.ap).1 else (vaInt L.ap).1) 10 true,
             nz := L.prec - (F.fmtUnsigned
               (if (vaInt L.ap).1 < 0 then -(vaInt L.ap).1 else (vaInt L.ap).1) 10 true).length,
             ap := (vaInt L.ap).2 }
  else { L with ap := (vaInt L.ap).2 }

/-- `case 'e'`, `'E'`, `'f'`, `'F'` (lines 182-194). -/
def switchFloat {D : Type} (F : FmtNumber D) (L : Locals D) : Locals D :=
  { L with pre := signPrefix (F.isNegative (vaDbl F L.ap).1) L.plusSign,
           item := F.fmtDouble
             (if F.isNegative (vaDbl F L.ap).1 then F.negate (vaDbl F L.ap).1
              else (vaDbl F L.ap).1)
             (if L.prec < 0 then 6 else L.prec) L.altForm L.c,
           ap := (vaDbl F L.ap).2 }

/-- The text of an unsigned conversion in base `base`: nothing for the value 0
with precision 0. -/
def unsignedText {D : Type} (F : FmtNumber D) (L : Locals D) (base : Nat) : List Nat :=
  if L.prec ≠ 0 ∨ (vaInt L.ap).1 ≠ 0 then F.fmtUnsigned (vaInt L.ap).1 base (L.c == 88) else []

/-- `case 'o'`, `'u'`, `'x'`, `'X'` and the label `printUnsigned` (lines
209-237); `base` and `altForm` are what the case set before the jump. -/
def switchUnsigned {D : Type} (F : FmtNumber D) (L : Locals D) (base : Nat) (altForm : Bool) :
    Locals D :=
  if altForm = true ∧ (vaInt L.ap).1 ≠ 0 then
    if L.c = 111 then
      { L with altForm := altForm, item := 48 :: unsignedText F L base,
               nz := if L.prec ≠ 0 ∨ (vaInt L.ap).1 ≠ 0
                     then L.prec - (unsignedText F L base).length else L.nz,
               ap := (vaInt L.ap).2 }
    else
      { L with altForm := altForm, pre := [48, L.c], item := unsignedText F L base,
               nz := if L.prec ≠ 0 ∨ (vaInt L.ap).1 ≠ 0
                     then L.prec - (unsignedText F L base).length else L.nz,
               ap := (vaInt L.ap).2 }
  else
    { L with altForm := altForm, item := unsignedText F L base,
             nz := if L.prec ≠ 0 ∨ (vaInt L.ap).1 ≠ 0
                   then L.prec - (unsignedText F L base).length else L.nz,
             ap := (vaInt L.ap).2 }

/-- Lines 150-242: the `switch (c)`, which sets the item, the prefix, the zero
count `nz` and takes the argument. -/
def phaseSwitch {D : Type} (F : FmtNumber D) (L : Locals D) : Locals D :=
  if L.c = 99 then switchChar L
  else if L.c = 115 then switchStr L
  else if L.c = 100 ∨ L.c = 105 then switchSigned F L
  else if L.c = 101 ∨ L.c = 69 ∨ L.c = 102 ∨ L.c = 70 then switchFloat F L
  else if L.c = 111 then switchUnsigned F L 8 L.altForm
  else if L.c = 117 then switchUnsigned F L 10 false
  else if L.c = 120 ∨ L.c = 88 then switchUnsigned F L 16 L.altForm
  else { L with item := [L.c] }

/-- Lines 258-285: blanks in front unless left-adjusted, the prefix if there is
one, the zeros, the item, blanks behind when left-adjusted (after the first loop
`nf` is not positive any more). -/
def emit (sink : Sink) (log : WriteLog) (leftAdjust : Bool) (nf : Int) (pre : List Nat)
    (nz : Int) (item : List Nat) : Except WriteLog WriteLog :=
  ((((if leftAdjust then Except.ok log else putN sink 32 nf.toNat log).bind
    (fun l1 => if pre.length ≠ 0 then put sink l1 pre else Except.ok l1)).bind
    (fun l2 => putN sink 48 nz.toNat l2)).bind
    (fun l3 => put sink l3 item)).bind
    (fun l4 => putN sink 32 (if leftAdjust then nf.toNat else 0) l4)

/-- Lines 81-146: the parse of one conversion up to its conversion character,
`c` being the character read after the `%`. -/
def parseConv {D : Type} (c : Nat) (fmt : List Nat) (ap : List (Arg D)) : Locals D :=
  phaseLong (phasePrec (phaseLeft (phaseWidth (phaseFlags c fmt ap))))

/-- Line 244: `if (nz < 0) nz = 0;`. -/
def clampNz {D : Type} (L : Locals D) : Int := if L.nz < 0 then 0 else L.nz

/-- Line 245: `n = ns + np + nz`. -/
def itemCount {D : Type} (L : Locals D) : Int :=
  (L.item.length : Int) + L.pre.length + clampNz L

/-- Lines 246-257, what is added to `nc`: `n` if `width < n`, else `width`. -/
def fieldCount {D : Type} (L : Locals D) : Int :=
  if L.width < itemCount L then itemCount L else L.width

/-- Lines 246-257, `nz` afterwards: with zero padding it grows by `width - n`. -/
def zeroCount {D : Type} (L : Locals D) : Int :=
  if L.width < itemCount L then clampNz L
  else if L.zeroPad then clampNz L + (L.width - itemCount L) else clampNz L

/-- Lines 246-257, `nf`: `width - n` when the field is wider than the item and
is not padded with zeros, else 0. -/
def blankCount {D : Type} (L : Locals D) : Int :=
  if L.width < itemCount L then 0
  else if L.zeroPad then 0 else L.width - itemCount L

/-- Lines 258-285 for the locals `L`. -/
def emitConv {D : Type} (sink : Sink) (log : WriteLog) (L : Locals D) :
    Except WriteLog WriteLog :=
  emit sink log L.leftAdjust (blankCount L) L.pre (zeroCount L) L.item

/-- Lines 71-79: the literal text is counted and written, if there is any. -/
def putLiteral (sink : Sink) (log : WriteLog) (text : List Nat) : Except WriteLog WriteLog :=
  if text.length ≠ 0 then put sink log text else Except.ok log

/-- The `while (true)` loop of `vfprintf` (PrintTemplates.h 70-286) with `fuel`
iterations allowed.  The result is the value returned (`nc`, or -1 after the
jump to `fail`) and the calls of `write` made; `none` when the iterations
allowed are used up. -/
def vfprintfLoop {D : Type} (F : FmtNumber D) (sink : Sink) :
    Nat → List Nat → List (Arg D) → Int → WriteLog → Option (Int × WriteLog)
  | 0, _, _, _, _ => none
  | fuel + 1, fmt, ap, nc, log =>
    match putLiteral sink log (scanLiteral fmt).1 with
    | Except.error out => some (-1, out)
    | Except.ok log1 =>
      if (scanLiteral fmt).2.1 = 0 then some (nc + (scanLiteral fmt).1.length, log1)
      else if (parseConv (nextChar (scanLiteral fmt).2.2).1
                (nextChar (scanLiteral fmt).2.2).2 ap).c = 0 then
        some (nc + (scanLiteral fmt).1.length, log1)
      else
        match emitConv sink log1 (phaseSwitch F (parseConv (nextChar (scanLiteral fmt).2.2).1
                (nextChar (scanLiteral fmt).2.2).2 ap)) with
        | Except.error out => some (-1, out)
        | Except.ok log2 =>
          vfprintfLoop F sink fuel
            (phaseSwitch F (parseConv (nextChar (scanLiteral fmt).2.2).1
                (nextChar (scanLiteral fmt).2.2).2 ap)).fmt
            (phaseSwitch F (parseConv (nextChar (scanLiteral fmt).2.2).1
                (nextChar (scanLiteral fmt).2.2).2 ap)).ap
            (nc + (scanLiteral fmt).1.length
              + fieldCount (phaseSwitch F (parseConv (nextChar (scanLiteral fmt).2.2).1
                (nextChar (scanLiteral fmt).2.2).2 ap)))
            log2

/-- `vfprintf(file, fmt, ap)`. -/
def vfprintf {D : Type} (F : FmtNumber D) (sink : Sink) (fmt : List Nat) (ap : List (Arg D)) :
    Option (Int × WriteLog) :=
  vfprintfLoop F sink (fmt.length + 1) fmt ap 0 []

/-- Formatters for base 10 built on `fmtBase10`, over a one-point type of
doubles; other bases and doubles give no text. -/
def decFmt : FmtNumber Unit :=
  { fmtUnsigned := fun v base _ => if base = 10 then fmtBase10 v.toNat else [],
    fmtSigned := fun v base _ =>
      if base = 10 then (if v < 0 then 45 :: fmtBase10 (-v).toNat else fmtBase10 v.toNat)
      else [],
    fmtDouble := fun _ _ _ _ => [], isNegative := fun _ => false,
    negate := fun d => d, zero := () }

/-- The last call returned a count other than the one requested, and every call
before it returned the count requested. -/
def FailedLast (out : WriteLog) : Prop :=
  ∃ init req r, out = init ++ [(req, r)] ∧ AllAccepted init ∧ r ≠ (req.length : Int)

/-- Outcome of a run of checked writes that starts from `log`: either it ends
normally, with every call accepted and `delta` more bytes passed, or it jumped to
`fail` right after a call that was not accepted. -/
def Step (log : WriteLog) (delta : Int) : Except WriteLog WriteLog → Prop
  | Except.ok out => AllAccepted out ∧ totalBytes out = totalBytes log + delta
  | Except.error out => FailedLast out

/-- What `vfprintf` may end with: the byte total with every call accepted, or -1
right after the one call that was not accepted. -/
def Final (ret : Int) (out : WriteLog) : Prop :=
  (AllAccepted out ∧ ret = totalBytes out) ∨ (ret = -1 ∧ FailedLast out)

/-! ## SDIO configuration (snap_libraries/SdFs/src/SdCard/SdioCard.h) -/

/-- `#define FIFO_SDIO 0`. -/
def FIFO_SDIO : Nat := 0

/-- `#define DMA_SDIO 1`. -/
def DMA_SDIO : Nat := 1

/-- The class `SdioConfig` (SdioCard.h 31-45): its only member is the `uint8_t`
`m_options`. -/
structure SdioConfig where
  m_options : Nat
  deriving DecidableEq, Repr

namespace SdioConfig

/-- `SdioConfig() : m_options(FIFO_SDIO) {}`. -/
def ctor : SdioConfig := { m_options := FIFO_SDIO }

/-- `explicit SdioConfig(uint8_t opt) : m_options(opt) {}`; the argument is
converted to the `uint8_t` parameter. -/
def ctorOpt (opt : Nat) : SdioConfig := { m_options := opt % 256 }

/-- `uint8_t options() {return m_options;}`. -/
def options (c : SdioConfig) : Nat := c.m_options

/-- `bool useDma() {return m_options & DMA_SDIO;}`. -/
def useDma (c : SdioConfig) : Bool := (c.m_options &&& DMA_SDIO) != 0

end SdioConfig

/-! ## Path characters: theorems -/

/-- C1: lfnLegalChar returns false for each of the nine reserved characters and
for every control code (c <= 0x1F), in the single-byte and in the Unicode build. -/
theorem lfnLegalChar_rejects_reserved_and_control (unicode : Bool) (c : Int)
    (h : c ∈ reservedChars ∨ c ≤ 0x1F) : lfnLegalChar unicode c = false := by
  unfold lfnLegalChar
  rcases h with h | h
  · have h9 : c = 47 ∨ c = 92 ∨ c = 34 ∨ c = 42 ∨
        c = 58 ∨ c = 60 ∨ c = 62 ∨ c = 63 ∨ c = 124 := by
      simpa [reservedChars] using h
    rw [if_pos h9]
  · have hn : ¬ (0x1F < c) := by omega
    split
    · rfl
    · cases unicode <;> simp [hn]

/-- Instance of C1 at the colon, a reserved character, in the single-byte build. -/
theorem lfnLegalChar_rejects_reserved_and_control_witness :
    ((58 : Int) ∈ reservedChars ∨ (58 : Int) ≤ 0x1F) ∧ lfnLegalChar false 58 = false :=
  ⟨Or.inl (by decide), lfnLegalChar_rejects_reserved_and_control false 58 (Or.inl (by decide))⟩

/-! ## Handle state: theorems -/

namespace ExFatFile

/-- C2 (as stated, refuted): the constructor leaves both lengths as found in the
object's storage, so the constructed handle can have validLength() greater than
dataLength(). -/
theorem ctor_validLength_gt_dataLength :
    ¬ (validLength (ctor staleStorage) ≤ dataLength (ctor staleStorage)) := by
  decide

/-- C2 (amended): validLength() <= dataLength() is preserved by clearError and
clearWriteError, and by the inline wrappers rewind, seekCur, seekEnd and
truncate(length) whenever the out-of-line seekSet and truncate() preserve it;
the constructor changes neither length, so a constructed handle satisfies the
inequality exactly when its storage did. -/
theorem validLength_le_dataLength_preserved {V : Type}
    (seekSet : SeekSetFn V) (truncate0 : TruncateFn V)
    (hS : ∀ g u pos, validLength g ≤ dataLength g →
      validLength (seekSet g u pos).2.1 ≤ dataLength (seekSet g u pos).2.1)
    (hT : ∀ g u, validLength g ≤ dataLength g →
      validLength (truncate0 g u).2.1 ≤ dataLength (truncate0 g u).2.1)
    (f : ExFatFile) (v : V) (h : validLength f ≤ dataLength f) :
    validLength (clearError f) ≤ dataLength (clearError f) ∧
    validLength (clearWriteError f) ≤ dataLength (clearWriteError f) ∧
    validLength (rewind seekSet f v).1 ≤ dataLength (rewind seekSet f v).1 ∧
    (∀ offset, validLength (seekCur seekSet f v offset).2.1
        ≤ dataLength (seekCur seekSet f v offset).2.1) ∧
    (∀ offset, validLength (seekEnd seekSet f v offset).2.1
        ≤ dataLength (seekEnd seekSet f v offset).2.1) ∧
    (∀ length, validLength (truncate seekSet truncate0 f v length).2.1
        ≤ dataLength (truncate seekSet truncate0 f v length).2.1) ∧
    (∀ mem, validLength (ctor mem) ≤ dataLength (ctor mem) ↔
        validLength mem ≤ dataLength mem) := by
  refine ⟨h, h, hS f v 0 h, fun offset => hS f v _ h, ?_, ?_, fun mem => Iff.rfl⟩
  · intro offset
    unfold seekEnd
    split
    · exact hS f v _ h
    · exact h
  · intro length
    unfold truncate
    dsimp only
    split
    · exact hT _ _ (hS f v length h)
    · exact hS f v length h

/-- Instance of C2 (amended) at truncate(40) on the sample file, with a seekSet that moves the position and a truncate() that cuts both lengths to it. -/
theorem validLength_le_dataLength_preserved_witness :
    validLength sampleFile ≤ dataLength sampleFile ∧
    validLength (truncate (fun g (u : Unit) pos => (true, { g with m_curPosition := pos }, u))
      (fun g u => (true, { g with m_validLength := g.m_curPosition,
                                  m_dataLength := g.m_curPosition }, u))
      sampleFile () 40).2.1
    ≤ dataLength (truncate (fun g (u : Unit) pos => (true, { g with m_curPosition := pos }, u))
      (fun g u => (true, { g with m_validLength := g.m_curPosition,
                                  m_dataLength := g.m_curPosition }, u))
      sampleFile () 40).2.1 :=
  ⟨by decide,
   (validLength_le_dataLength_preserved
      (fun g (u : Unit) pos => (true, { g with m_curPosition := pos }, u))
      (fun g u => (true, { g with m_validLength := g.m_curPosition,
                                  m_dataLength := g.m_curPosition }, u))
      (fun _ _ _ hg => hg) (fun _ _ _ => Nat.le_refl _)
      sampleFile () (by decide)).2.2.2.2.2.1 40⟩

/-- C3: a freshly constructed handle is closed with no error recorded (isOpen()
and the bool conversion are false, attributes == 0, getError() == 0), whatever
its storage held; and in every state isOpen() is true exactly when
attributes != 0. -/
theorem ctor_closed_and_isOpen_iff (mem f : ExFatFile) :
    isOpen (ctor mem) = false ∧ toBool (ctor mem) = false ∧
    (ctor mem).m_attributes = 0 ∧ getError (ctor mem) = 0 ∧
    (isOpen f = true ↔ f.m_attributes ≠ 0) := by
  refine ⟨rfl, rfl, rfl, rfl, ?_⟩
  simp [isOpen]

/-- C4: fileSize() is the valid length, not the allocated length: in every
state fileSize() == validLength(), and a handle with dataLength 4096 and
validLength 0 reports fileSize() == 0. -/
theorem fileSize_eq_validLength (f : ExFatFile) :
    fileSize f = validLength f ∧
    dataLength { f with m_dataLength := 4096, m_validLength := 0 } = 4096 ∧
    fileSize { f with m_dataLength := 4096, m_validLength := 0 } = 0 :=
  ⟨rfl, rfl, rfl⟩

/-! ### Error bits -/

/-- The error byte after `clearWriteError`, as a natural number. -/
theorem clearWriteError_error (f : ExFatFile) :
    (clearWriteError f).m_error = Nat.ldiff f.m_error 1 % 2 ^ 8 := by
  have hland : Int.land (f.m_error : Int) (~~~(WRITE_ERROR : Int))
      = ((Nat.ldiff f.m_error 1 : Nat) : Int) := rfl
  show (Int.land (f.m_error : Int) (~~~(WRITE_ERROR : Int)) % 256).toNat = _
  rw [hland]
  omega

/-- Bit `i` of the error byte after `clearWriteError`. -/
theorem clearWriteError_testBit (f : ExFatFile) (i : Nat) :
    (clearWriteError f).m_error.testBit i
      = (decide (i < 8) && (f.m_error.testBit i && !Nat.testBit 1 i)) := by
  rw [clearWriteError_error, Nat.testBit_mod_two_pow, Nat.testBit_ldiff]

/-- C6: clearWriteError() clears only the WRITE_ERROR bit: afterwards
getWriteError() is false, the READ_ERROR bit and every other bit of getError()
are unchanged, and no other member of the handle changes (m_error is a uint8_t,
so its value is below 256). -/
theorem clearWriteError_clears_only_write_bit (f : ExFatFile) (h : f.m_error < 256) :
    getWriteError (clearWriteError f) = false ∧
    (∀ i, i ≠ 0 → (getError (clearWriteError f)).testBit i = (getError f).testBit i) ∧
    (getError (clearWriteError f) &&& READ_ERROR = getError f &&& READ_ERROR) ∧
    (clearWriteError f).m_curPosition = f.m_curPosition ∧
    (clearWriteError f).m_dataLength = f.m_dataLength ∧
    (clearWriteError f).m_validLength = f.m_validLength ∧
    (clearWriteError f).m_curCluster = f.m_curCluster ∧
    (clearWriteError f).m_firstCluster = f.m_firstCluster ∧
    (clearWriteError f).m_vol = f.m_vol ∧
    (clearWriteError f).m_dirPos = f.m_dirPos ∧
    (clearWriteError f).m_setCount = f.m_setCount ∧
    (clearWriteError f).m_attributes = f.m_attributes ∧
    (clearWriteError f).m_flags = f.m_flags := by
  have hbits : ∀ i, i ≠ 0 →
      (clearWriteError f).m_error.testBit i = f.m_error.testBit i := by
    intro i hi
    rw [clearWriteError_testBit]
    have h1 : Nat.testBit 1 i = false := by
      cases hb : Nat.testBit 1 i
      · rfl
      · exact absurd (Nat.testBit_one_eq_true_iff_self_eq_zero.mp hb) hi
    rw [h1]
    by_cases h8 : i < 8
    · simp [h8]
    · have hlt : f.m_error < 2 ^ i :=
        lt_of_lt_of_le h (by
          calc 256 = 2 ^ 8 := by norm_num
            _ ≤ 2 ^ i := Nat.pow_le_pow_right (by norm_num) (by omega))
      simp [h8, Nat.testBit_lt_two_pow hlt]
  have hbit0 : (clearWriteError f).m_error.testBit 0 = false := by
    rw [clearWriteError_testBit]
    simp
  refine ⟨?_, hbits, ?_, rfl, rfl, rfl, rfl, rfl, rfl, rfl, rfl, rfl, rfl⟩
  · have hmod : (clearWriteError f).m_error % 2 ≠ 1 := by
      intro hm
      rw [Nat.testBit_zero] at hbit0
      simp [hm] at hbit0
    have hz : (clearWriteError f).m_error &&& 1 = 0 := by
      rw [Nat.and_one_is_mod]
      omega
    simp [getWriteError, WRITE_ERROR, hz]
  · apply Nat.eq_of_testBit_eq
    intro i
    simp only [getError, Nat.testBit_land]
    by_cases hi : i = 0
    · subst hi
      simp [READ_ERROR]
    · rw [hbits i hi]

/-- Instance of C6 at the sample file, whose error byte has both bits set. -/
theorem clearWriteError_clears_only_write_bit_witness :
    sampleFile.m_error < 256 ∧
    getWriteError (clearWriteError sampleFile) = false ∧
    (getError (clearWriteError sampleFile) &&& READ_ERROR = getError sampleFile &&& READ_ERROR) :=
  ⟨by decide,
   (clearWriteError_clears_only_write_bit sampleFile (by decide)).1,
   (clearWriteError_clears_only_write_bit sampleFile (by decide)).2.2.1⟩

/-- C7: clearError() clears all error bits: afterwards getError() == 0 and
getWriteError() is false, no member other than the error byte changes, and
calling it twice equals calling it once. -/
theorem clearError_clears_all (f : ExFatFile) :
    getError (clearError f) = 0 ∧
    getWriteError (clearError f) = false ∧
    clearError f = { f with m_error := 0 } ∧
    (clearError f).m_curPosition = f.m_curPosition ∧
    (clearError f).m_dataLength = f.m_dataLength ∧
    (clearError f).m_validLength = f.m_validLength ∧
    (clearError f).m_curCluster = f.m_curCluster ∧
    (clearError f).m_firstCluster = f.m_firstCluster ∧
    (clearError f).m_vol = f.m_vol ∧
    (clearError f).m_dirPos = f.m_dirPos ∧
    (clearError f).m_setCount = f.m_setCount ∧
    (clearError f).m_attributes = f.m_attributes ∧
    (clearError f).m_flags = f.m_flags ∧
    clearError (clearError f) = clearError f :=
  ⟨rfl, by simp [getWriteError, clearError, WRITE_ERROR],
   rfl, rfl, rfl, rfl, rfl, rfl, rfl, rfl, rfl, rfl, rfl, rfl⟩

/-! ### Bytes available -/

/-- C8: for a normal file whose position is not past end-of-file, available64()
is exactly fileSize() - curPosition() (m_validLength is a uint64_t, so its value
is below 2^64). -/
theorem available64_file (f : ExFatFile) (hv : f.m_validLength < 2 ^ 64)
    (hfile : isFile f = true) (hpos : curPosition f ≤ fileSize f) :
    available64 f = fileSize f - curPosition f := by
  unfold available64 sub64
  rw [if_pos hfile]
  unfold curPosition fileSize at *
  norm_num at hv ⊢
  omega

/-- Instance of C8 at the sample file: 1000 valid bytes, position 100. -/
theorem available64_file_witness :
    sampleFile.m_validLength < 2 ^ 64 ∧ isFile sampleFile = true ∧
    curPosition sampleFile ≤ fileSize sampleFile ∧ available64 sampleFile = 900 :=
  ⟨by decide, by decide, by decide,
   available64_file sampleFile (by decide) (by decide) (by decide)⟩

/-- For every handle that is not a normal file (isFile() false), which covers
every closed handle, available64() and available() return 0. -/
theorem available_not_file (w : Nat) (f : ExFatFile) (hfile : isFile f = false) :
    available64 f = 0 ∧ available w f = 0 := by
  have h64 : available64 f = 0 := by
    unfold available64
    simp [hfile]
  refine ⟨h64, ?_⟩
  unfold available
  simp [h64]

/-- The constructed handle has exclusive type tags (it has none), and the
operations whose body is in the source keep the tags as they are. -/
theorem tagsExclusive_ctor_and_kept (dirAttr : Nat) (mem f : ExFatFile) :
    TagsExclusive dirAttr (ctor mem) ∧
    (TagsExclusive dirAttr (clearError f) ↔ TagsExclusive dirAttr f) ∧
    (TagsExclusive dirAttr (clearWriteError f) ↔ TagsExclusive dirAttr f) := by
  refine ⟨?_, Iff.rfl, Iff.rfl⟩
  intro h
  have hf : isFile (ctor mem) = false := by
    simp [isFile, ctor, FILE_ATTR_CLOSED]
  rw [hf] at h
  exact Bool.noConfusion h.1

/-- C9: for every handle that is a directory (isDir() is true), available64()
and available() return 0.  A handle is a normal file or a directory, never both
(its type tags are exclusive), so isFile() is false for it. -/
theorem available_dir_zero (dirAttr w : Nat) (f : ExFatFile)
    (hx : TagsExclusive dirAttr f) (hd : isDir dirAttr f = true) :
    available64 f = 0 ∧ available w f = 0 := by
  have hfile : isFile f = false := by
    cases hf : isFile f
    · rfl
    · exact absurd ⟨hf, hd⟩ hx
  exact available_not_file w f hfile

/-- Instance of C9 at a subdirectory handle whose position is 100 and whose
valid length is 0. -/
theorem available_dir_zero_witness :
    TagsExclusive 0x10 sampleDir ∧ isDir 0x10 sampleDir = true ∧
    available64 sampleDir = 0 ∧ available 32 sampleDir = 0 :=
  ⟨by decide, by decide, available_dir_zero 0x10 32 sampleDir (by decide) (by decide)⟩

/-- Narrowing to a `w`-bit `int` keeps a value that is at most `INT_MAX`. -/
theorem bmod_of_le_INT_MAX (w m : Nat) (hw : 0 < w) (hm : m ≤ INT_MAX w) :
    Int.bmod (m : Int) (2 ^ w) = m := by
  obtain ⟨k, rfl⟩ : ∃ k, w = k + 1 := ⟨w - 1, by omega⟩
  unfold INT_MAX at hm
  simp only [Nat.add_sub_cancel] at hm
  have hk : 0 < 2 ^ k := Nat.two_pow_pos k
  have h2 : 2 ^ (k + 1) = 2 * 2 ^ k := by rw [pow_succ]; ring
  rw [Int.bmod_def, h2]
  generalize 2 ^ k = p at *
  push_cast
  have hlt : (m : Int) % (2 * (p : Int)) = m := by
    apply Int.emod_eq_of_lt <;> omega
  rw [hlt]
  split <;> omega

/-- C10: in every state available() equals min(available64(), INT_MAX), for an
int of any width w > 0: it is INT_MAX whenever available64() exceeds INT_MAX,
and it is never negative and never above INT_MAX. -/
theorem available_eq_min (w : Nat) (f : ExFatFile) (hw : 0 < w) :
    available w f = ((min (available64 f) (INT_MAX w) : Nat) : Int) ∧
    (0 : Int) ≤ available w f ∧ available w f ≤ (INT_MAX w : Int) ∧
    (available64 f ≤ INT_MAX w ∨ available w f = (INT_MAX w : Int)) := by
  have hmin : (if available64 f > INT_MAX w then INT_MAX w else available64 f)
      = min (available64 f) (INT_MAX w) := by
    split <;> omega
  have hval : available w f = ((min (available64 f) (INT_MAX w) : Nat) : Int) := by
    unfold available
    simp only [hmin]
    exact bmod_of_le_INT_MAX w _ hw (Nat.min_le_right _ _)
  refine ⟨hval, ?_, ?_, ?_⟩
  · rw [hval]; exact Int.ofNat_nonneg _
  · rw [hval]; exact_mod_cast Nat.min_le_right _ _
  · by_cases hle : available64 f ≤ INT_MAX w
    · exact Or.inl hle
    · right
      rw [hval, Nat.min_eq_right (by omega)]

/-- Instance of C10 at a file of 5,000,000,000 bytes with a 32-bit int. -/
theorem available_eq_min_witness :
    0 < 32 ∧ available 32 largeFile = 2147483647 ∧ INT_MAX 32 = 2147483647 ∧
    available64 largeFile = 5000000000 :=
  ⟨by decide, by
      have h := (available_eq_min 32 largeFile (by decide)).1
      rw [h]; decide,
    by decide, by decide⟩

end ExFatFile

/-! ## Byte-range operations: theorems -/

namespace ExFatFile

/-- Reading a list back through its own indices gives the list. -/
theorem map_range_getD (buf : List Nat) :
    (List.range buf.length).map (fun i => buf.getD i 0) = buf := by
  apply List.ext_getElem
  · simp
  · intro i h1 h2
    simp [List.getD_eq_getElem?_getD, List.getElem?_eq_getElem h2]

/-- A successful write implies an open handle and a working device. -/
theorem write_ok_inv (O_APPEND O_SYNC : Nat) (f : ExFatFile) (v : Volume) (buf : List Nat)
    (devOk : Bool) (hw : (write O_APPEND O_SYNC f v buf devOk).1 = Except.ok buf.length) :
    isOpen f = true ∧ devOk = true ∧
    ¬ (writeOffset O_APPEND f + buf.length > f.m_dataLength ∧
        clustersFor v.clusterBytes (writeOffset O_APPEND f + buf.length)
          - clustersFor v.clusterBytes f.m_dataLength > v.freeClusters) := by
  unfold write at hw
  cases ho : isOpen f
  · simp [ho] at hw
  · simp only [ho, Bool.not_true, Bool.false_eq_true, if_false] at hw
    split at hw
    · simp at hw
    · rename_i hspace
      cases hd : devOk
      · simp [hd] at hw
      · exact ⟨rfl, rfl, hspace⟩

/-- C5: read-after-write.  Whenever write(buf, n) succeeds, the seekSet back to
the offset the bytes were written at succeeds, and the read of n bytes that
follows (on a device that carries out the transfer) returns n and delivers
exactly the bytes written: out == buf. -/
theorem read_after_write (O_APPEND O_SYNC : Nat) (f : ExFatFile) (v : Volume)
    (buf : List Nat) (devOk : Bool)
    (hw : (write O_APPEND O_SYNC f v buf devOk).1 = Except.ok buf.length) :
    writeThenReadBack O_APPEND O_SYNC f v buf devOk = (true, (buf.length : Int), buf) := by
  obtain ⟨ho, hd, hspace⟩ := write_ok_inv O_APPEND O_SYNC f v buf devOk hw
  have ho1 : f.m_attributes ≠ 0 := by simpa [isOpen] using ho
  subst hd
  unfold writeThenReadBack write
  simp only [ho, Bool.not_true, Bool.false_eq_true, if_false, hspace]
  simp only [seekSet, isOpen, read]
  have hne : (f.m_attributes != 0) = true := by simpa using ho1
  simp only [hne, if_true, Bool.not_true, Bool.false_eq_true, if_false]
  have hmin : min buf.length
      (max f.m_validLength (writeOffset O_APPEND f + buf.length) - writeOffset O_APPEND f)
      = buf.length := by omega
  simp only [hmin]
  refine Prod.ext rfl (Prod.ext rfl ?_)
  show (List.range buf.length).map _ = buf
  conv_rhs => rw [← map_range_getD buf]
  apply List.map_congr_left
  intro i hi
  have hi1 : i < buf.length := List.mem_range.mp hi
  simp [hi1]

/-- Instance of C5: three bytes written at position 100 of the sample file are read back. -/
theorem read_after_write_witness :
    (write 4 8 sampleFile sampleVolume [1, 2, 3] true).1 = Except.ok [1, 2, 3].length ∧
    writeThenReadBack 4 8 sampleFile sampleVolume [1, 2, 3] true = (true, 3, [1, 2, 3]) :=
  ⟨rfl, read_after_write 4 8 sampleFile sampleVolume [1, 2, 3] true rfl⟩

end ExFatFile

/-! ## Relative seeks, truncation and single-byte read: theorems -/

namespace ExFatFile

/-- C11: seekEnd(offset) fails fast on anything that is not a normal file: when
isFile() is false, for every offset and whatever seekSet is, seekEnd returns
false and leaves the handle and the volume as they were; the result does not
depend on seekSet, which is not invoked. -/
theorem seekEnd_not_file {V : Type} (seekSet seekSet2 : SeekSetFn V) (f : ExFatFile) (v : V)
    (offset : Int) (h : isFile f = false) :
    seekEnd seekSet f v offset = (false, f, v) ∧
    seekEnd seekSet f v offset = seekEnd seekSet2 f v offset := by
  unfold seekEnd
  simp [h]

/-- Instance of C11 at a directory handle and at a closed handle, with a seekSet
that would move the position and report success. -/
theorem seekEnd_not_file_witness :
    isFile sampleDir = false ∧
    seekEnd (fun g (u : Unit) pos => (true, { g with m_curPosition := pos }, u))
      sampleDir () (-4) = (false, sampleDir, ()) ∧
    seekEnd (fun g (u : Unit) pos => (true, { g with m_curPosition := pos }, u))
      closedFile () 0 = (false, closedFile, ()) :=
  ⟨by decide,
   (seekEnd_not_file (fun g (u : Unit) pos => (true, { g with m_curPosition := pos }, u))
      (fun g u _ => (false, g, u)) sampleDir () (-4) (by decide)).1,
   (seekEnd_not_file (fun g (u : Unit) pos => (true, { g with m_curPosition := pos }, u))
      (fun g u _ => (false, g, u)) closedFile () 0 (by decide)).1⟩

/-- The unsigned 64-bit sum of a position and a converted signed offset is the
mathematical sum whenever that sum lies in `0 .. 2^64 - 1`. -/
theorem add64_toU64 (a : Nat) (offset : Int) (h0 : 0 ≤ (a : Int) + offset)
    (h1 : (a : Int) + offset < 2 ^ 64) :
    add64 a (toU64 offset) = ((a : Int) + offset).toNat := by
  unfold add64 toU64
  have hz : ((a + (offset % 2 ^ 64).toNat) % 2 ^ 64 : Nat)
      = (((a : Int) + offset) % 2 ^ 64).toNat := by
    have hm : (0 : Int) ≤ offset % 2 ^ 64 := Int.emod_nonneg _ (by norm_num)
    zify
    rw [Int.toNat_of_nonneg hm, Int.toNat_of_nonneg (Int.emod_nonneg _ (by norm_num))]
    rw [Int.add_emod, Int.emod_emod_of_dvd _ (dvd_refl _), ← Int.add_emod]
  rw [hz, Int.emod_eq_of_lt h0 h1]

/-- C12: relative seeks target the exact mathematical position.  Whenever
0 <= curPosition + offset < 2^64, seekCur(offset) is seekSet(curPosition +
offset); for a normal file with 0 <= validLength + offset < 2^64, seekEnd(offset)
is seekSet(validLength + offset); rewind() is seekSet(0) with the result
dropped.  This holds for every seekSet. -/
theorem seek_relative_exact {V : Type} (seekSet : SeekSetFn V) (f : ExFatFile) (v : V)
    (offset : Int) :
    (0 ≤ (f.m_curPosition : Int) + offset → (f.m_curPosition : Int) + offset < 2 ^ 64 →
      seekCur seekSet f v offset = seekSet f v ((f.m_curPosition : Int) + offset).toNat) ∧
    (isFile f = true →
      0 ≤ (f.m_validLength : Int) + offset → (f.m_validLength : Int) + offset < 2 ^ 64 →
      seekEnd seekSet f v offset = seekSet f v ((f.m_validLength : Int) + offset).toNat) ∧
    rewind seekSet f v = (seekSet f v 0).2 := by
  refine ⟨?_, ?_, rfl⟩
  · intro h0 h1
    unfold seekCur
    rw [add64_toU64 _ _ h0 h1]
  · intro hf h0 h1
    unfold seekEnd
    rw [if_pos hf, add64_toU64 _ _ h0 h1]

/-- Instance of C12 at the sample file (position 100, valid length 1000):
seekCur(-30) is seekSet(70) and seekEnd(-1000) is seekSet(0). -/
theorem seek_relative_exact_witness :
    seekCur seekSet sampleFile sampleVolume (-30) = seekSet sampleFile sampleVolume 70 ∧
    seekEnd seekSet sampleFile sampleVolume (-1000) = seekSet sampleFile sampleVolume 0 :=
  ⟨(seek_relative_exact seekSet sampleFile sampleVolume (-30)).1 (by decide) (by decide),
   (seek_relative_exact seekSet sampleFile sampleVolume (-1000)).2.1 (by decide)
     (by decide) (by decide)⟩

/-- The wrapper `truncate(length)` for arbitrary out-of-line members: it returns
true exactly when `seekSet(length)` and then `truncate()` do, and after a failed
`seekSet` it returns false with the state `seekSet` left, whatever `truncate()`
is. -/
theorem truncate_short_circuit {V : Type} (S : SeekSetFn V) (T : TruncateFn V)
    (f : ExFatFile) (v : V) (length : Nat) :
    ((truncate S T f v length).1 = true ↔
      (S f v length).1 = true ∧ (T (S f v length).2.1 (S f v length).2.2).1 = true) ∧
    ((S f v length).1 = false → truncate S T f v length = (false, (S f v length).2)) := by
  unfold truncate
  cases h : (S f v length).1 <;> simp [h]

/-- C13: truncate(length) succeeds exactly when seekSet(length) succeeds and the
truncate() that follows succeeds; after a success fileSize() is exactly length;
when seekSet(length) fails it returns false whatever truncate() is (it is not
invoked), and the handle and the volume, so every length and the free-cluster
count, are unchanged. -/
theorem truncate_length (dirAttr O_WRITE : Nat) (f : ExFatFile) (v : Volume) (length : Nat) :
    ((truncate seekSet (truncate0 dirAttr O_WRITE) f v length).1 = true ↔
      (seekSet f v length).1 = true ∧
      (truncate0 dirAttr O_WRITE (seekSet f v length).2.1 (seekSet f v length).2.2).1 = true) ∧
    ((truncate seekSet (truncate0 dirAttr O_WRITE) f v length).1 = true →
      fileSize (truncate seekSet (truncate0 dirAttr O_WRITE) f v length).2.1 = length) ∧
    ((seekSet f v length).1 = false →
      ∀ T : TruncateFn Volume, truncate seekSet T f v length = (false, f, v)) := by
  refine ⟨(truncate_short_circuit seekSet _ f v length).1, ?_, ?_⟩
  · intro hok
    obtain ⟨hs, ht⟩ := (truncate_short_circuit seekSet _ f v length).1.mp hok
    have hopen : isOpen f = true := by
      cases ho : isOpen f
      · simp [seekSet, ho] at hs
      · rfl
    have hseek : seekSet f v length = (true, { f with m_curPosition := length }, v) := by
      simp [seekSet, hopen]
    unfold truncate
    simp only [hseek, if_true]
    rw [hseek] at ht
    unfold truncate0 at ht ⊢
    split
    · rename_i hc
      simp [hc] at ht
    · rfl
  · intro hs T
    have hclosed : isOpen f = false := by
      cases ho : isOpen f
      · rfl
      · simp [seekSet, ho] at hs
    have hseek : seekSet f v length = (false, f, v) := by
      simp [seekSet, hclosed]
    rw [(truncate_short_circuit seekSet T f v length).2 hs, hseek]

/-- Instance of C13: truncate(40) on the sample file, whose flags carry the
write bit 0x02, succeeds and leaves fileSize() == 40. -/
theorem truncate_length_witness :
    (truncate seekSet (truncate0 0x10 0x02) sampleFile sampleVolume 40).1 = true ∧
    fileSize (truncate seekSet (truncate0 0x10 0x02) sampleFile sampleVolume 40).2.1 = 40 :=
  ⟨by decide,
   (truncate_length 0x10 0x02 sampleFile sampleVolume 40).2.1 (by decide)⟩

/-- C14: the single-byte read() returns the byte that read(&b, 1) stored, as an
int in 0..255, exactly when read(&b, 1) returns 1, and -1 in every other case;
so its result is -1 only when read(&b, 1) did not return 1, and a stored byte
0xFF comes back as 255.  This holds for every read. -/
theorem readByte_result {V : Type} (readFn : ReadFn V) (b0 : Nat) (f : ExFatFile) (v : V) :
    ((readFn f v 1).1 = 1 →
      (readByte readFn b0 f v).1 = (((readFn f v 1).2.1.headD b0 % 256 : Nat) : Int) ∧
      0 ≤ (readByte readFn b0 f v).1 ∧ (readByte readFn b0 f v).1 ≤ 255) ∧
    ((readFn f v 1).1 ≠ 1 → (readByte readFn b0 f v).1 = -1) ∧
    ((readByte readFn b0 f v).1 = -1 ↔ (readFn f v 1).1 ≠ 1) ∧
    ((readFn f v 1).1 = 1 → (readFn f v 1).2.1 = [0xFF] →
      (readByte readFn b0 f v).1 = 255) := by
  unfold readByte
  have hb : (readFn f v 1).2.1.headD b0 % 256 < 256 := Nat.mod_lt _ (by norm_num)
  refine ⟨?_, ?_, ?_, ?_⟩
  · intro h1
    simp only [h1, if_true]
    refine ⟨trivial, ?_, ?_⟩ <;> omega
  · intro h1
    simp only [h1, if_false]
  · constructor
    · intro hm h1
      simp only [h1, if_true] at hm
      omega
    · intro h1
      simp only [h1, if_false]
  · intro h1 hff
    simp [h1, hff]

/-- Instance of C14: the sample volume holds 0xFF everywhere; read() at position
100 of the sample file returns 255, and on a closed handle it returns -1. -/
theorem readByte_result_witness :
    (readByte readFF 0 sampleFile sampleVolume).1 = 255 ∧
    (readByte readFF 0 closedFile sampleVolume).1 = -1 :=
  ⟨(readByte_result readFF 0 sampleFile sampleVolume).2.2.2 (by decide) (by decide),
   (readByte_result readFF 0 closedFile sampleVolume).2.1 (by decide)⟩

end ExFatFile

/-! ## Software SPI driver: theorems -/

namespace SdSoftSpiDriver

/-- The loop writes the received bytes at `i, i + 1, ..., i + n - 1` in this
order and leaves every other index as it was. -/
theorem receiveLoop_spec {P : Type} (io : SoftSPIClass P) (n i : Nat) (buf : Nat → Nat)
    (d : SdSoftSpiDriver P) (j : Nat) :
    (receiveLoop io n i buf d).1 j
      = if i ≤ j ∧ j < i + n then (receiveSeq io n d).getD (j - i) 0 else buf j := by
  induction n generalizing i buf d with
  | zero =>
    have hno : ¬ (i ≤ j ∧ j < i + 0) := by omega
    rw [if_neg hno]
    rfl
  | succ n ih =>
    rw [receiveLoop, ih, receiveSeq]
    by_cases hij : i = j
    · subst hij
      have h1 : ¬ (i + 1 ≤ i ∧ i < i + 1 + n) := by omega
      have h2 : i ≤ i ∧ i < i + (n + 1) := by omega
      simp [h1, h2]
    · by_cases hr : i + 1 ≤ j ∧ j < i + 1 + n
      · have h2 : i ≤ j ∧ j < i + (n + 1) := by omega
        have h3 : j - i = (j - (i + 1)) + 1 := by omega
        rw [if_pos hr, if_pos h2, h3, List.getD_cons_succ]
      · have h2 : ¬ (i ≤ j ∧ j < i + (n + 1)) := by omega
        rw [if_neg hr, if_neg h2, Function.update_noteq (Ne.symm hij)]

/-- The number of bytes received by `n` single-byte calls is `n`. -/
theorem receiveSeq_length {P : Type} (io : SoftSPIClass P) (n : Nat) (d : SdSoftSpiDriver P) :
    (receiveSeq io n d).length = n := by
  induction n generalizing d with
  | zero => rfl
  | succ n ih => simp [receiveSeq, ih]

/-- With a null port every received byte is 0xFF. -/
theorem receiveSeq_null {P : Type} (io : SoftSPIClass P) (n : Nat) :
    receiveSeq io n ({ m_spi := none } : SdSoftSpiDriver P) = List.replicate n 0xFF := by
  induction n with
  | zero => rfl
  | succ n ih =>
    rw [receiveSeq]
    simp only [receive]
    rw [ih]
    rfl

/-- C20: after begin(), receive(buf, count) returns 0 and stores exactly the
count bytes that count successive single-byte receive() calls deliver, the i-th
one at buf[i], leaving every index from count on unchanged; when the configured
port is null each of these bytes is 0xFF. -/
theorem receiveBuf_spec {P : Type} (io : SoftSPIClass P) (d0 : SdSoftSpiDriver P)
    (spiConfig : SdSpiConfig P) (buf : Nat → Nat) (count : Nat) :
    (receiveBuf io (begin io d0 spiConfig) buf count).1 = 0 ∧
    (receiveSeq io count (begin io d0 spiConfig)).length = count ∧
    (∀ i, i < count → (receiveBuf io (begin io d0 spiConfig) buf count).2.1 i
        = (receiveSeq io count (begin io d0 spiConfig)).getD i 0) ∧
    (∀ i, count ≤ i → (receiveBuf io (begin io d0 spiConfig) buf count).2.1 i = buf i) ∧
    (spiConfig.spiPort = none →
      ∀ i, i < count → (receiveBuf io (begin io d0 spiConfig) buf count).2.1 i = 0xFF) := by
  have hspec := receiveLoop_spec io count 0 buf (begin io d0 spiConfig)
  refine ⟨rfl, receiveSeq_length io count _, ?_, ?_, ?_⟩
  · intro i hi
    show (receiveLoop io count 0 buf (begin io d0 spiConfig)).1 i = _
    rw [hspec i, if_pos (by omega)]
    simp
  · intro i hi
    show (receiveLoop io count 0 buf (begin io d0 spiConfig)).1 i = _
    rw [hspec i, if_neg (by omega)]
  · intro hnull i hi
    show (receiveLoop io count 0 buf (begin io d0 spiConfig)).1 i = _
    have hb : begin io d0 spiConfig = { m_spi := none } := by
      simp [begin, hnull]
    rw [hspec i, if_pos (by omega), hb, receiveSeq_null]
    simp [List.getD_eq_getElem?_getD, hi]

end SdSoftSpiDriver

/-! ## Number fields: theorems -/

/-- With enough fuel the loop of `fmtBase10` puts the decimal digits of a
positive number in front of the text so far. -/
theorem fmtBase10Loop_eq (fuel n : Nat) (acc : List Nat) (hf : n < fuel) (hn : 0 < n) :
    fmtBase10Loop fuel n acc = (Nat.digits 10 n).reverse.map (fun d => d + 48) ++ acc := by
  induction fuel generalizing n acc with
  | zero => omega
  | succ fuel ih =>
    rw [fmtBase10Loop, Nat.digits_def' (by norm_num) hn]
    by_cases hq : n / 10 = 0
    · simp [hq]
    · rw [if_neg hq, ih (n / 10) _ (by omega) (by omega)]
      simp

/-- The text `fmtBase10` stores is the decimal digits of the value. -/
theorem fmtBase10_eq (n : Nat) : fmtBase10 n = decimalDigits n := by
  unfold fmtBase10 decimalDigits
  by_cases hn : n = 0
  · subst hn
    rfl
  · rw [if_neg hn, fmtBase10Loop_eq (n + 1) n [] (by omega) (by omega)]
    simp

/-- A number below `10 ^ k` has at most `k` decimal digits (`k > 0`). -/
theorem decimalDigits_length_le (n k : Nat) (hk : 0 < k) (hn : n < 10 ^ k) :
    (decimalDigits n).length ≤ k := by
  unfold decimalDigits
  by_cases h0 : n = 0
  · simp [h0]; omega
  · rw [if_neg h0, List.length_map, List.length_reverse, Nat.digits_len 10 n (by norm_num) h0]
    have := Nat.log_lt_of_lt_pow h0 hn
    omega

/-- The decimal digits are digit characters, decode to the number, and start
with a nonzero digit unless the number is zero. -/
theorem decimalDigits_sound (n : Nat) :
    (∀ c ∈ decimalDigits n, 48 ≤ c ∧ c ≤ 57) ∧
    Nat.ofDigits 10 ((decimalDigits n).map (fun c => c - 48)).reverse = n ∧
    (n ≠ 0 → (decimalDigits n).head? ≠ some 48) := by
  unfold decimalDigits
  by_cases h0 : n = 0
  · subst h0
    simp
  · rw [if_neg h0]
    refine ⟨?_, ?_, ?_⟩
    · intro c hc
      simp only [List.mem_map, List.mem_reverse] at hc
      obtain ⟨d, hd, rfl⟩ := hc
      have := Nat.digits_lt_base (by norm_num : 1 < 10) hd
      omega
    · have hmap : ((Nat.digits 10 n).reverse.map (fun d => d + 48)).map (fun c => c - 48)
          = (Nat.digits 10 n).reverse := by
        rw [List.map_map]
        conv_rhs => rw [← List.map_id (Nat.digits 10 n).reverse]
        apply List.map_congr_left
        intro a _
        simp
      rw [hmap, List.reverse_reverse, Nat.ofDigits_digits]
    · intro _
      have hne : Nat.digits 10 n ≠ [] := Nat.digits_ne_nil_iff_ne_zero.mpr h0
      have hlast := Nat.getLast_digit_ne_zero 10 h0
      rw [List.head?_map, List.head?_reverse, List.getLast?_eq_getLast _ hne]
      simp only [Option.map_some', ne_eq, Option.some.injEq]
      omega

/-- What `printFieldT` passes to `write` when the digits leave three places of
the buffer free. -/
theorem printFieldT_eq (sink : List Nat → Int) (sizeofType sign value term : Nat)
    (hlen : (decimalDigits value).length + 3 ≤ 3 * sizeofType + 3) :
    printFieldT sink sizeofType sign value term
      = some (sink ((if sign ≠ 0 then [sign] else []) ++ decimalDigits value ++
                (if term = 0 then [] else if term = 10 then [13, 10] else [term])),
              (if sign ≠ 0 then [sign] else []) ++ decimalDigits value ++
                (if term = 0 then [] else if term = 10 then [13, 10] else [term])) := by
  unfold printFieldT
  rw [fmtBase10_eq]
  have hterm : (if term ≠ 0 then (if term = 10 then [13, term] else [term]) else [])
      = (if term = 0 then [] else if term = 10 then [13, 10] else [term]) := by
    by_cases h0 : term = 0
    · simp [h0]
    · by_cases h10 : term = 10
      · simp [h10]
      · simp [h0, h10]
  have htl : (if term = 0 then [] else if term = 10 then [13, 10] else [term]).length ≤ 2 := by
    split
    · simp
    · split <;> simp
  simp only [hterm]
  by_cases hs : sign ≠ 0
  · simp only [hs, if_true, ne_eq, not_false_eq_true]
    rw [if_pos (by simp only [List.length_cons, List.length_append]; omega)]
    simp
  · simp only [hs, if_false]
    rw [if_pos (by simp only [List.length_append]; omega)]
    simp

/-- C15: printField prints a number followed by a field terminator.  For every
16- or 32-bit value, signed (v) or unsigned (u), and every terminator, write is
called once with a '-' if v < 0, the decimal digits of |v| without leading
zeros, then the terminator (nothing for 0, CR LF for '\n', else the byte term),
and the result is the result of that write; INT16_MIN and INT32_MIN included. -/
theorem printField_bytes (sink : List Nat → Int) (w : Nat) (v : Int) (u term : Nat)
    (hw : w = 16 ∨ w = 32) (hv : -(2 : Int) ^ (w - 1) ≤ v ∧ v < 2 ^ (w - 1))
    (hu : u < 2 ^ w) :
    printFieldSigned sink w v term
      = some (sink ((if v < 0 then [45] else []) ++ decimalDigits v.natAbs ++
                (if term = 0 then [] else if term = 10 then [13, 10] else [term])),
              (if v < 0 then [45] else []) ++ decimalDigits v.natAbs ++
                (if term = 0 then [] else if term = 10 then [13, 10] else [term])) ∧
    printFieldUnsigned sink w u term
      = some (sink (decimalDigits u ++
                (if term = 0 then [] else if term = 10 then [13, 10] else [term])),
              decimalDigits u ++
                (if term = 0 then [] else if term = 10 then [13, 10] else [term])) := by
  have hmag : ((if v < 0 then Int.bmod (-v) (2 ^ w) else v) % 2 ^ w).toNat = v.natAbs := by
    rcases hw with rfl | rfl
    · have hb := @Int.bmod_emod (-v) 65536
      norm_num at hv hb ⊢
      split
      · rw [hb]; omega
      · omega
    · have hb := @Int.bmod_emod (-v) 4294967296
      norm_num at hv hb ⊢
      split
      · rw [hb]; omega
      · omega
  have hvlen : (decimalDigits v.natAbs).length + 3 ≤ 3 * (w / 8) + 3 := by
    rcases hw with rfl | rfl
    · norm_num at hv ⊢
      have := decimalDigits_length_le v.natAbs 5 (by norm_num) (by omega)
      omega
    · norm_num at hv ⊢
      have := decimalDigits_length_le v.natAbs 10 (by norm_num) (by omega)
      omega
  have hulen : (decimalDigits u).length + 3 ≤ 3 * (w / 8) + 3 := by
    rcases hw with rfl | rfl
    · norm_num at hu ⊢
      have := decimalDigits_length_le u 5 (by norm_num) (by omega)
      omega
    · norm_num at hu ⊢
      have := decimalDigits_length_le u 10 (by norm_num) (by omega)
      omega
  constructor
  · unfold printFieldSigned
    simp only [hmag]
    rw [printFieldT_eq sink (w / 8) _ _ term hvlen]
    by_cases hneg : v < 0 <;> simp [hneg]
  · unfold printFieldUnsigned
    rw [printFieldT_eq sink (w / 8) 0 u term hulen]
    simp

/-- Instance of C15 at INT16_MIN with terminator '\n' and at 65535 with ','. -/
theorem printField_bytes_witness :
    printFieldSigned acceptAll 16 (-32768) 10
      = some (8, [45, 51, 50, 55, 54, 56, 13, 10]) ∧
    printFieldUnsigned acceptAll 16 65535 44 = some (6, [54, 53, 53, 51, 53, 44]) := by
  have h := printField_bytes acceptAll 16 (-32768) 65535 44 (Or.inl rfl)
    (by decide) (by decide)
  have h10 := (printField_bytes acceptAll 16 (-32768) 65535 10 (Or.inl rfl)
    (by decide) (by decide)).1
  have d1 : decimalDigits 32768 = [51, 50, 55, 54, 56] := by
    rw [← fmtBase10_eq]; decide
  have d2 : decimalDigits 65535 = [54, 53, 53, 51, 53] := by
    rw [← fmtBase10_eq]; decide
  constructor
  · rw [h10]
    simp [acceptAll, d1]
  · rw [h.2]
    simp [acceptAll, d2]

/-- Writing a buffer as a string passes the characters in front of its first 0. -/
theorem takeWhile_before_nul (l : List Nat) (h : ∀ c ∈ l, c ≠ 0) :
    (l ++ [0]).takeWhile (fun c => c != 0) = l := by
  induction l with
  | nil => rfl
  | cons a l ih =>
    have ha : a ≠ 0 := h a (List.mem_cons_self a l)
    have hl : ∀ c ∈ l, c ≠ 0 := fun c hc => h c (List.mem_cons_of_mem a hc)
    have hb : (a != 0) = true := by simpa using ha
    rw [List.cons_append, List.takeWhile_cons, hb, ih hl]
    rfl

/-- C16: printFileSize prints the file size in bytes.  For every 32-bit size s
the digits fit the 11-byte buffer (at most 10 of them, so nothing is stored
before its start), write is called once with exactly 10 characters, the decimal
digits of s right-justified behind blanks, and the result is the result of that
write. -/
theorem printFileSize_bytes (sink : List Nat → Nat) (s : Nat) (hs : s < 2 ^ 32) :
    (decimalDigits s).length ≤ 10 ∧
    printFileSize sink s
      = some (sink (List.replicate (10 - (decimalDigits s).length) 32 ++ decimalDigits s),
              List.replicate (10 - (decimalDigits s).length) 32 ++ decimalDigits s) ∧
    (List.replicate (10 - (decimalDigits s).length) 32 ++ decimalDigits s).length = 10 := by
  have hlen : (decimalDigits s).length ≤ 10 :=
    decimalDigits_length_le s 10 (by norm_num) (by norm_num at hs ⊢; omega)
  refine ⟨hlen, ?_, ?_⟩
  · unfold printFileSize
    simp only [fmtBase10_eq, hlen, if_true]
    have hnz : ∀ c ∈ List.replicate (10 - (decimalDigits s).length) 32 ++ decimalDigits s,
        c ≠ 0 := by
      intro c hc
      rcases List.mem_append.mp hc with h | h
      · rw [List.eq_of_mem_replicate h]; norm_num
      · have := (decimalDigits_sound s).1 c h
        omega
    rw [takeWhile_before_nul _ hnz]
  · rw [List.length_append, List.length_replicate]
    omega

/-- Instance of C16 at the largest 32-bit size and at 1234. -/
theorem printFileSize_bytes_witness :
    printFileSize List.length 4294967295
      = some (10, [52, 50, 57, 52, 57, 54, 55, 50, 57, 53]) ∧
    printFileSize List.length 1234
      = some (10, [32, 32, 32, 32, 32, 32, 49, 50, 51, 52]) := by
  have h1 := (printFileSize_bytes List.length 4294967295 (by decide)).2.1
  have h2 := (printFileSize_bytes List.length 1234 (by decide)).2.1
  have d1 : decimalDigits 4294967295 = [52, 50, 57, 52, 57, 54, 55, 50, 57, 53] := by
    rw [← fmtBase10_eq]; decide
  have d2 : decimalDigits 1234 = [49, 50, 51, 52] := by
    rw [← fmtBase10_eq]; decide
  constructor
  · rw [h1, d1]; rfl
  · rw [h2, d2]; rfl

/-! ## Formatted print: theorems -/

/-- When the literal scan stops at a character other than 0, the rest of the
format is shorter than the format. -/
theorem scanLiteral_length (fmt : List Nat) (h : (scanLiteral fmt).2.1 ≠ 0) :
    (scanLiteral fmt).2.2.length < fmt.length := by
  induction fmt with
  | nil => simp [scanLiteral] at h
  | cons c rest ih =>
    unfold scanLiteral at h ⊢
    split
    · rename_i hc
      rw [if_pos hc] at h
      have := ih h
      simp only [List.length_cons]
      omega
    · simp

/-- Reading a character does not lengthen the format. -/
theorem nextChar_length (fmt : List Nat) : (nextChar fmt).2.length ≤ fmt.length := by
  cases fmt <;> simp [nextChar]

theorem totalResults_append (log : WriteLog) (req : List Nat) (r : Int) :
    totalResults (log ++ [(req, r)]) = totalResults log + r := by
  simp [totalResults]

theorem totalBytes_append (log : WriteLog) (req : List Nat) (r : Int) :
    totalBytes (log ++ [(req, r)]) = totalBytes log + req.length := by
  simp [totalBytes]

/-- When every call returned the count requested, the results add up to the
bytes passed. -/
theorem totalResults_eq_totalBytes (log : WriteLog) (h : AllAccepted log) :
    totalResults log = totalBytes log := by
  induction log with
  | nil => rfl
  | cons e log ih =>
    have he : e.2 = (e.1.length : Int) := h e (List.mem_cons_self e log)
    have hl : AllAccepted log := fun x hx => h x (List.mem_cons_of_mem e hx)
    simp only [totalResults, totalBytes, List.map_cons, List.sum_cons] at ih ⊢
    rw [he, ih hl]

/-- The loop of `vmprintf` ends within `fmt.length + 1` iterations, and what it
returns exceeds the sum of the `write` results by what `nc` exceeded it at the
start. -/
theorem vmprintfLoop_sum {D : Type} (F : FmtNumber D) (sink : Sink) (fuel : Nat)
    (fmt : List Nat) (ap : List (Arg D)) (nc : Int) (log : WriteLog)
    (hf : fmt.length < fuel) :
    ∃ ret out, vmprintfLoop F sink fuel fmt ap nc log = some (ret, out) ∧
      ret - totalResults out = nc - totalResults log := by
  induction fuel generalizing fmt ap nc log with
  | zero => omega
  | succ fuel ih =>
    unfold vmprintfLoop
    have hacc : (if (scanLiteral fmt).1.length ≠ 0
          then nc + sink log (scanLiteral fmt).1 else nc)
        - totalResults (if (scanLiteral fmt).1.length ≠ 0
          then log ++ [((scanLiteral fmt).1, sink log (scanLiteral fmt).1)] else log)
        = nc - totalResults log := by
      split
      · rw [totalResults_append]; omega
      · rfl
    dsimp only
    by_cases hc : (scanLiteral fmt).2.1 = 0
    · rw [if_pos hc]
      exact ⟨_, _, rfl, hacc⟩
    · rw [if_neg hc]
      have h1 := scanLiteral_length fmt hc
      have h2 := nextChar_length (scanLiteral fmt).2.2
      have h3 := nextChar_length (nextChar (scanLiteral fmt).2.2).2
      have hlen : (if (nextChar (scanLiteral fmt).2.2).1 = 108
          then nextChar (nextChar (scanLiteral fmt).2.2).2
          else nextChar (scanLiteral fmt).2.2).2.length < fuel := by
        split <;> omega
      generalize (if (nextChar (scanLiteral fmt).2.2).1 = 108
          then nextChar (nextChar (scanLiteral fmt).2.2).2
          else nextChar (scanLiteral fmt).2.2) = c2 at hlen ⊢
      by_cases hz : c2.1 = 0
      · rw [if_pos hz]
        exact ⟨_, _, rfl, hacc⟩
      · rw [if_neg hz]
        obtain ⟨ret, out, hrun, hsum⟩ := ih c2.2 (vmItem F c2.1 ap).2 _ _ hlen
        refine ⟨ret, out, hrun, ?_⟩
        rw [hsum, totalResults_append]
        omega

/-- What `vmprintf` returns is the sum of the results of its `write` calls; when
each call returned the count requested this is the number of bytes written. -/
theorem vmprintf_returns_sum {D : Type} (F : FmtNumber D) (sink : Sink) (fmt : List Nat)
    (ap : List (Arg D)) :
    ∃ ret out, vmprintf F sink fmt ap = some (ret, out) ∧ ret = totalResults out ∧
      (AllAccepted out → ret = totalBytes out) := by
  obtain ⟨ret, out, hrun, hsum⟩ :=
    vmprintfLoop_sum F sink (fmt.length + 1) fmt ap 0 [] (Nat.lt_succ_self _)
  have hret : ret = totalResults out := by
    simp only [totalResults, List.map_nil, List.sum_nil] at hsum
    simp only [totalResults]
    omega
  exact ⟨ret, out, hrun, hret, fun h => hret.trans (totalResults_eq_totalBytes out h)⟩

/-- C19 (the code at the failing input): the format "ab%c" with the argument 'x'
is printed to a file with room for two bytes.  The write of "ab" returns 2, the
write of "x" is refused and returns 0, and vmprintf returns 2, which is not
negative. -/
theorem vmprintf_short_write_not_negative :
    vmprintf noFmt (roomFor 2) [97, 98, 37, 99] [Arg.int 120]
      = some (2, [([97, 98], 2), ([120], 0)]) ∧
    ¬ AllAccepted [([97, 98], (2 : Int)), ([120], 0)] ∧ ¬ ((2 : Int) < 0) := by
  refine ⟨by decide, ?_, by decide⟩
  intro h
  have := h ([120], 0) (by simp)
  simp at this

/-! ### vfprintf: the format is consumed -/

theorem parseFlags_length (fl : Flags) (c : Nat) (fmt : List Nat) :
    (parseFlags fl c fmt).2.2.length ≤ fmt.length := by
  induction fmt generalizing fl c with
  | nil => unfold parseFlags; split <;> simp
  | cons c1 rest ih =>
    unfold parseFlags
    split
    · have := ih (setFlag fl c) c1
      simp only [List.length_cons]
      omega
    · simp

theorem parseNum_length (n : Int) (c : Nat) (fmt : List Nat) :
    (parseNum n c fmt).2.2.length ≤ fmt.length := by
  induction fmt generalizing n c with
  | nil => unfold parseNum; split <;> simp
  | cons c1 rest ih =>
    unfold parseNum
    split
    · have := ih (10 * n + c - 48) c1
      simp only [List.length_cons]
      omega
    · simp

theorem phaseFlags_length {D : Type} (c : Nat) (fmt : List Nat) (ap : List (Arg D)) :
    (phaseFlags c fmt ap).fmt.length ≤ fmt.length :=
  parseFlags_length _ c fmt

theorem phaseWidth_length {D : Type} (L : Locals D) :
    (phaseWidth L).fmt.length ≤ L.fmt.length := by
  unfold phaseWidth
  split
  · exact parseNum_length 0 L.c L.fmt
  · split
    · split <;> exact nextChar_length L.fmt
    · exact Nat.le_refl _

theorem phaseLeft_length {D : Type} (L : Locals D) :
    (phaseLeft L).fmt.length ≤ L.fmt.length := by
  unfold phaseLeft
  split <;> exact Nat.le_refl _

theorem phasePrec_length {D : Type} (L : Locals D) :
    (phasePrec L).fmt.length ≤ L.fmt.length := by
  unfold phasePrec
  have h1 := nextChar_length L.fmt
  split
  · dsimp only
    split
    · have := parseNum_length 0 (nextChar L.fmt).1 (nextChar L.fmt).2
      exact Nat.le_trans this h1
    · split
      · have := nextChar_length (nextChar L.fmt).2
        exact Nat.le_trans this h1
      · exact h1
  · exact Nat.le_refl _

theorem phaseLong_length {D : Type} (L : Locals D) :
    (phaseLong L).fmt.length ≤ L.fmt.length := by
  unfold phaseLong
  split
  · exact nextChar_length L.fmt
  · exact Nat.le_refl _

theorem phaseSwitch_fmt {D : Type} (F : FmtNumber D) (L : Locals D) :
    (phaseSwitch F L).fmt = L.fmt := by
  have hS : (switchSigned F L).fmt = L.fmt := by
    unfold switchSigned
    split <;> rfl
  have hU : ∀ base alt, (switchUnsigned F L base alt).fmt = L.fmt := by
    intro base alt
    unfold switchUnsigned
    split
    · split <;> rfl
    · rfl
  unfold phaseSwitch
  split
  · rfl
  split
  · rfl
  split
  · exact hS
  split
  · rfl
  split
  · exact hU _ _
  split
  · exact hU _ _
  split
  · exact hU _ _
  · rfl

/-- After the parse of a conversion the format is no longer than it was after
the `%`. -/
theorem parsed_length {D : Type} (F : FmtNumber D) (c : Nat) (fmt : List Nat)
    (ap : List (Arg D)) :
    (phaseSwitch F (parseConv c fmt ap)).fmt.length ≤ fmt.length := by
  rw [phaseSwitch_fmt]
  unfold parseConv
  have h1 := phaseFlags_length c fmt ap
  have h2 := phaseWidth_length (phaseFlags c fmt ap)
  have h3 := phaseLeft_length (phaseWidth (phaseFlags c fmt ap))
  have h4 := phasePrec_length (phaseLeft (phaseWidth (phaseFlags c fmt ap)))
  have h5 := phaseLong_length (phasePrec (phaseLeft (phaseWidth (phaseFlags c fmt ap))))
  omega

/-! ### vfprintf: checked writes -/

theorem AllAccepted_append (log : WriteLog) (req : List Nat) (h : AllAccepted log) :
    AllAccepted (log ++ [(req, (req.length : Int))]) := by
  intro e he
  rcases List.mem_append.mp he with h1 | h1
  · exact h e h1
  · rw [List.mem_singleton.mp h1]

theorem step_put (sink : Sink) (log : WriteLog) (bytes : List Nat) (h : AllAccepted log) :
    Step log bytes.length (put sink log bytes) := by
  unfold put
  split
  · rename_i heq
    rw [heq]
    exact ⟨AllAccepted_append log bytes h, totalBytes_append log bytes _⟩
  · rename_i hne
    exact ⟨log, bytes, sink log bytes, rfl, h, hne⟩

theorem step_ok (log : WriteLog) (h : AllAccepted log) : Step log 0 (Except.ok log) :=
  ⟨h, by omega⟩

/-- Two runs of checked writes in sequence: the second starts only when the
first ended normally, and the bytes add up. -/
theorem step_bind (log : WriteLog) (d1 d2 : Int) (r : Except WriteLog WriteLog)
    (f : WriteLog → Except WriteLog WriteLog) (h1 : Step log d1 r)
    (h2 : ∀ l, AllAccepted l → Step l d2 (f l)) : Step log (d1 + d2) (r.bind f) := by
  cases r with
  | error out => exact h1
  | ok l =>
    obtain ⟨hl, ht⟩ := h1
    have h3 := h2 l hl
    show Step log (d1 + d2) (f l)
    cases hf : f l with
    | error out =>
      rw [hf] at h3
      exact h3
    | ok out =>
      rw [hf] at h3
      exact ⟨h3.1, by rw [h3.2, ht]; omega⟩

theorem step_putN (sink : Sink) (ch k : Nat) (log : WriteLog) (h : AllAccepted log) :
    Step log k (putN sink ch k log) := by
  induction k generalizing log with
  | zero => exact step_ok log h
  | succ k ih =>
    unfold putN
    have hb := step_bind log ([ch].length : Nat) k (put sink log [ch]) (putN sink ch k)
      (step_put sink log [ch] h) (fun l hl => ih l hl)
    have he : (([ch].length : Nat) : Int) + (k : Int) = ((k + 1 : Nat) : Int) := by
      simp only [List.length_singleton]; omega
    rw [he] at hb
    exact hb

/-- The output of one conversion: blanks, prefix, zeros and item are passed in
this order, and a call that is not accepted ends it. -/
theorem step_emit (sink : Sink) (log : WriteLog) (leftAdjust : Bool) (nf : Int)
    (pre : List Nat) (nz : Int) (item : List Nat) (h : AllAccepted log) :
    Step log ((nf.toNat : Int) + pre.length + nz.toNat + item.length)
      (emit sink log leftAdjust nf pre nz item) := by
  unfold emit
  have e : ((nf.toNat : Int) + pre.length + nz.toNat + item.length)
      = ((((((if leftAdjust then 0 else nf.toNat : Nat) : Int) + (pre.length : Int))
          + (nz.toNat : Int)) + (item.length : Int))
          + ((if leftAdjust then nf.toNat else 0 : Nat) : Int)) := by
    cases leftAdjust
    · simp only [Bool.false_eq_true, if_false]
      omega
    · simp only [if_true]
      omega
  rw [e]
  refine step_bind log _ _ _ _ (step_bind log _ _ _ _ (step_bind log _ _ _ _
    (step_bind log _ _ _ _ ?_ ?_) ?_) ?_) ?_
  · cases leftAdjust
    · exact step_putN sink 32 nf.toNat log h
    · exact step_ok log h
  · intro l hl
    by_cases hp : pre.length ≠ 0
    · rw [if_pos hp]
      exact step_put sink l pre hl
    · rw [if_neg hp]
      have h0 : (pre.length : Int) = 0 := by omega
      rw [h0]
      exact step_ok l hl
  · intro l hl
    exact step_putN sink 48 nz.toNat l hl
  · intro l hl
    exact step_put sink l item hl
  · intro l hl
    exact step_putN sink 32 _ l hl

/-- The output of one conversion passes exactly the number of bytes that was
added to `nc`, unless a call is not accepted. -/
theorem step_emitConv {D : Type} (sink : Sink) (log : WriteLog) (L : Locals D)
    (h : AllAccepted log) : Step log (fieldCount L) (emitConv sink log L) := by
  have hs := step_emit sink log L.leftAdjust (blankCount L) L.pre (zeroCount L) L.item h
  have e : ((blankCount L).toNat : Int) + L.pre.length + (zeroCount L).toNat + L.item.length
      = fieldCount L := by
    unfold blankCount zeroCount fieldCount itemCount clampNz
    split_ifs <;> omega
  rw [e] at hs
  exact hs

theorem step_putLiteral (sink : Sink) (log : WriteLog) (text : List Nat)
    (h : AllAccepted log) : Step log text.length (putLiteral sink log text) := by
  unfold putLiteral
  by_cases ht : text.length ≠ 0
  · rw [if_pos ht]
    exact step_put sink log text h
  · rw [if_neg ht]
    have h0 : (text.length : Int) = 0 := by omega
    rw [h0]
    exact step_ok log h

/-- The loop of `vfprintf` ends within `fmt.length + 1` iterations; it returns
the byte total when every call was accepted, and -1 right after the first call
that was not. -/
theorem vfprintfLoop_final {D : Type} (F : FmtNumber D) (sink : Sink) (fuel : Nat)
    (fmt : List Nat) (ap : List (Arg D)) (nc : Int) (log : WriteLog)
    (hf : fmt.length < fuel) (hacc : AllAccepted log) (hnc : nc = totalBytes log) :
    ∃ ret out, vfprintfLoop F sink fuel fmt ap nc log = some (ret, out) ∧ Final ret out := by
  induction fuel generalizing fmt ap nc log with
  | zero => omega
  | succ fuel ih =>
    unfold vfprintfLoop
    have hlit := step_putLiteral sink log (scanLiteral fmt).1 hacc
    cases hres : putLiteral sink log (scanLiteral fmt).1 with
    | error out =>
      rw [hres] at hlit
      exact ⟨-1, out, rfl, Or.inr ⟨rfl, hlit⟩⟩
    | ok log1 =>
      rw [hres] at hlit
      obtain ⟨hacc1, htot1⟩ := hlit
      have hnc1 : nc + (scanLiteral fmt).1.length = totalBytes log1 := by
        rw [htot1, hnc]
      dsimp only
      by_cases hc : (scanLiteral fmt).2.1 = 0
      · rw [if_pos hc]
        exact ⟨_, _, rfl, Or.inl ⟨hacc1, hnc1⟩⟩
      · rw [if_neg hc]
        by_cases hz : (parseConv (nextChar (scanLiteral fmt).2.2).1
            (nextChar (scanLiteral fmt).2.2).2 ap).c = 0
        · rw [if_pos hz]
          exact ⟨_, _, rfl, Or.inl ⟨hacc1, hnc1⟩⟩
        · rw [if_neg hz]
          have hemit := step_emitConv sink log1
            (phaseSwitch F (parseConv (nextChar (scanLiteral fmt).2.2).1
              (nextChar (scanLiteral fmt).2.2).2 ap)) hacc1
          have hlen : (phaseSwitch F (parseConv (nextChar (scanLiteral fmt).2.2).1
              (nextChar (scanLiteral fmt).2.2).2 ap)).fmt.length < fuel := by
            have h1 := scanLiteral_length fmt hc
            have h2 := nextChar_length (scanLiteral fmt).2.2
            have h3 := parsed_length F (nextChar (scanLiteral fmt).2.2).1
              (nextChar (scanLiteral fmt).2.2).2 ap
            omega
          generalize phaseSwitch F (parseConv (nextChar (scanLiteral fmt).2.2).1
              (nextChar (scanLiteral fmt).2.2).2 ap) = L at hemit hlen ⊢
          cases hres2 : emitConv sink log1 L with
          | error out =>
            rw [hres2] at hemit
            exact ⟨-1, out, rfl, Or.inr ⟨rfl, hemit⟩⟩
          | ok log2 =>
            rw [hres2] at hemit
            obtain ⟨hacc2, htot2⟩ := hemit
            exact ih L.fmt L.ap _ log2 hlen hacc2 (by rw [htot2, ← hnc1])

/-- Every run of `vfprintf` ends, and with one of the two outcomes. -/
theorem vfprintf_final {D : Type} (F : FmtNumber D) (sink : Sink) (fmt : List Nat)
    (ap : List (Arg D)) :
    ∃ ret out, vfprintf F sink fmt ap = some (ret, out) ∧ Final ret out :=
  vfprintfLoop_final F sink (fmt.length + 1) fmt ap 0 [] (Nat.lt_succ_self _)
    (fun _ h => absurd h (List.not_mem_nil _)) rfl

/-- C18: on failure vfprintf returns a negative value.  For every format string,
argument list, number formatter and sink, vfprintf returns a value, and if some
write returned a count other than the one requested, that value is -1, the
write in question is the last one made, and every write before it returned the
count requested. -/
theorem vfprintf_failure_negative {D : Type} (F : FmtNumber D) (sink : Sink) (fmt : List Nat)
    (ap : List (Arg D)) :
    ∃ ret out, vfprintf F sink fmt ap = some (ret, out) ∧
      (¬ AllAccepted out → ret = -1 ∧ FailedLast out) := by
  obtain ⟨ret, out, hrun, hfin⟩ := vfprintf_final F sink fmt ap
  refine ⟨ret, out, hrun, fun hnot => ?_⟩
  rcases hfin with ⟨h, _⟩ | h
  · exact absurd h hnot
  · exact h

/-- Instance of C18: "%5d" with the argument 42 to a file with room for three
bytes: the three blanks are taken, the write of "42" returns 0, and vfprintf
returns -1 without a further write; a refused literal ends "ab%c" at once. -/
theorem vfprintf_failure_negative_witness :
    vfprintf decFmt (roomFor 3) [37, 53, 100] [Arg.int 42]
      = some (-1, [([32], 1), ([32], 1), ([32], 1), ([52, 50], 0)]) ∧
    vfprintf decFmt (roomFor 1) [97, 98, 37, 99] [Arg.int 120]
      = some (-1, [([97, 98], 0)]) ∧
    (∃ ret out, vfprintf decFmt (roomFor 3) [37, 53, 100] [Arg.int 42] = some (ret, out) ∧
      (¬ AllAccepted out → ret = -1 ∧ FailedLast out)) :=
  ⟨by decide, by decide,
   vfprintf_failure_negative decFmt (roomFor 3) [37, 53, 100] [Arg.int 42]⟩

/-- Instance of C20: a port that delivers 7, 8, 9, ... fills the first three
places of a zeroed buffer with 7, 8, 9 and leaves the fourth. -/
theorem receiveBuf_spec_witness :
    (SdSoftSpiDriver.receiveBuf SdSoftSpiDriver.countingPort
      (SdSoftSpiDriver.begin SdSoftSpiDriver.countingPort ⟨none⟩ ⟨some 0⟩)
      (fun _ => 0) 3).1 = 0 ∧
    (SdSoftSpiDriver.receiveBuf SdSoftSpiDriver.countingPort
      (SdSoftSpiDriver.begin SdSoftSpiDriver.countingPort ⟨none⟩ ⟨some 0⟩)
      (fun _ => 0) 3).2.1 3 = 0 ∧
    (SdSoftSpiDriver.receiveBuf SdSoftSpiDriver.countingPort
      (SdSoftSpiDriver.begin SdSoftSpiDriver.countingPort ⟨none⟩ ⟨some 0⟩)
      (fun _ => 0) 3).2.1 2 = 9 :=
  ⟨(SdSoftSpiDriver.receiveBuf_spec SdSoftSpiDriver.countingPort ⟨none⟩ ⟨some 0⟩
      (fun _ => 0) 3).1,
   (SdSoftSpiDriver.receiveBuf_spec SdSoftSpiDriver.countingPort ⟨none⟩ ⟨some 0⟩
      (fun _ => 0) 3).2.2.2.1 3 (by decide),
   by decide⟩

/-! ## SDIO configuration: theorems -/

namespace SdioConfig

/-- C21: SdioConfig records its options.  A default-constructed SdioConfig has
options() == FIFO_SDIO == 0 and useDma() false; for every 8-bit opt,
SdioConfig(opt).options() == opt, useDma() is true when opt is DMA_SDIO, and
useDma() is true exactly when bit 0 of opt is set. -/
theorem options_recorded (opt : Nat) (h : opt < 256) :
    options ctor = FIFO_SDIO ∧ options ctor = 0 ∧ useDma ctor = false ∧
    options (ctorOpt opt) = opt ∧
    (opt = DMA_SDIO → useDma (ctorOpt opt) = true) ∧
    (useDma (ctorOpt opt) = true ↔ opt.testBit 0 = true) := by
  have hmod : opt % 256 = opt := Nat.mod_eq_of_lt h
  have hiff : useDma (ctorOpt opt) = true ↔ opt.testBit 0 = true := by
    unfold useDma ctorOpt DMA_SDIO
    simp only [hmod, Nat.and_one_is_mod, Nat.testBit_zero, bne_iff_ne, ne_eq,
      decide_eq_true_eq]
    omega
  refine ⟨rfl, rfl, by decide, ?_, ?_, hiff⟩
  · unfold options ctorOpt
    exact hmod
  · intro h1
    subst h1
    decide

/-- Instance of C21 at the options 0, 1, 2 and 3: DMA is used for 1 and 3 only. -/
theorem options_recorded_witness :
    (3 : Nat) < 256 ∧ options (ctorOpt 3) = 3 ∧ useDma (ctorOpt 3) = true ∧
    useDma (ctorOpt 2) = false ∧ useDma (ctorOpt DMA_SDIO) = true ∧
    useDma (ctorOpt FIFO_SDIO) = false :=
  ⟨by decide, (options_recorded 3 (by decide)).2.2.2.1,
   (options_recorded 3 (by decide)).2.2.2.2.2.mpr (by decide),
   by decide,
   (options_recorded DMA_SDIO (by decide)).2.2.2.2.1 rfl,
   by decide⟩

end SdioConfig
